import Mathlib

/-!
# Verification of the `blobs` simulation core

A shallow embedding, in Lean 4, of the core of the `blobs` repository:
the keyed arena (`src/keyed_set.rs`), the collision world
(`src/physics.rs`) and the simulation engine (`src/simulation.rs`).

Modelling conventions:

* `f32` scalars are modelled as exact rationals (`ℚ`); every concrete
  input used in a theorem below is exactly representable, and no claim
  under study concerns floating-point rounding.
* Rust's `Key<T>` (a `usize` wrapper) is modelled as `Nat`; `Layer` and
  `LayerMask` (newtypes over `u32` bit patterns) are modelled as `Nat`
  holding the same bit pattern (the layer numbers used by the program
  are 0, 1, 2 and 4, far below the `u32` width, so wraparound of
  `1u32 << num` cannot occur for those inputs).
* `HashMap` / `HashSet` are modelled as association lists (respectively
  lists) whose iteration order is insertion order.  Rust leaves hash-map
  iteration order unspecified; every general theorem below is either
  independent of that order or quantifies over it, and the concrete
  executions use maps small enough for the order not to matter to the
  stated facts.
* Rust's stable `sort_by` on the x coordinate is modelled by a stable
  insertion sort (`sortByX`); stable sorts by the same key agree, and
  all concrete executions below have pairwise distinct sort keys, which
  forces the order outright.
* The direction-update sub-phase of `Blob::step` (perception-driven
  steering: `prepare_step`, `math::slerp`, and the random fallback
  heading) computes one unit vector per blob from transcendental
  functions and the RNG.  The embedding receives that vector through an
  explicit parameter (`oracle : Nat → Blob → Vec2`); theorems about
  `step` quantify over the oracle, so they hold for every steering
  outcome the real code can produce.  Rendering-only data (names,
  colours) is omitted for the same reason: it feeds only the steering
  outcome and the screen.
* A failed `unwrap` in Rust aborts the program; the embedding models the
  corresponding lookup misses as no-ops, and theorems about `step`
  assume a well-formedness invariant (`Simulation.WF`) under which those
  misses cannot occur.
-/

namespace Blobs

/-! ## Two-dimensional vectors (`raylib`'s `Vector2`, over `ℚ`) -/

structure Vec2 where
  x : ℚ
  y : ℚ
deriving DecidableEq

instance : Add Vec2 := ⟨fun a b => ⟨a.x + b.x, a.y + b.y⟩⟩

instance : Sub Vec2 := ⟨fun a b => ⟨a.x - b.x, a.y - b.y⟩⟩

theorem Vec2.add_def (a b : Vec2) : a + b = ⟨a.x + b.x, a.y + b.y⟩ := rfl

theorem Vec2.sub_def (a b : Vec2) : a - b = ⟨a.x - b.x, a.y - b.y⟩ := rfl

/-- Scalar multiplication `v * s` of raylib's `Vector2` by an `f32`. -/
def Vec2.scale (v : Vec2) (s : ℚ) : Vec2 := ⟨v.x * s, v.y * s⟩

/-- `Vector2::length_sqr`. -/
def Vec2.lengthSqr (v : Vec2) : ℚ := v.x * v.x + v.y * v.y

/-! ## Association lists: the model of `std::collections::HashMap` -/

/-- `HashMap::get`. -/
def alGet {α : Type} : List (Nat × α) → Nat → Option α
  | [], _ => none
  | (k, v) :: rest, key => if key = k then some v else alGet rest key

/-- `HashMap::insert` (overwrites an existing entry in place, otherwise
appends). -/
def alUpdate {α : Type} : List (Nat × α) → Nat → α → List (Nat × α)
  | [], k, v => [(k, v)]
  | (k', v') :: rest, k, v =>
      if k' = k then (k, v) :: rest else (k', v') :: alUpdate rest k v

/-- `HashMap::remove` (the entry's key; association lists built by
`alUpdate` have at most one entry per key). -/
def alRemove {α : Type} (l : List (Nat × α)) (k : Nat) : List (Nat × α) :=
  l.filter (fun p => p.1 != k)

/-! ## Layers and layer masks (`src/physics.rs`) -/

/-- `Layer::new`: the single bit `1u32 << num`. -/
def Layer.new (num : Nat) : Nat := Nat.shiftLeft 1 num

/-- `LayerMask::add`: `self.0 |= bits`. -/
def maskAdd (mask layer : Nat) : Nat := Nat.lor mask layer

/-- `LayerMask::new`: fold `add` over the iterator, starting from
`LayerMask::empty()` (`0`). -/
def maskNew (layers : List Nat) : Nat := layers.foldl maskAdd 0

/-- `LayerMask::contains`: `(self.0 & layer.0) != 0`. -/
def maskContains (mask layer : Nat) : Bool := Nat.land mask layer != 0

/-! ## Circles (`src/physics.rs`) -/

structure Circle where
  center : Vec2
  radius : ℚ
  layer : Nat
deriving DecidableEq

/-- `Circle::intersects_x_axis`:
`(other.center.x - self.center.x).abs() <= self.radius + other.radius`. -/
def Circle.intersectsXAxis (self other : Circle) : Prop :=
  |other.center.x - self.center.x| ≤ self.radius + other.radius

instance (self other : Circle) : Decidable (self.intersectsXAxis other) :=
  inferInstanceAs (Decidable (_ ≤ _))

/-- `Circle::intersects`:
`(other.center - self.center).length_sqr() <= (r₁ + r₂) * (r₁ + r₂)`. -/
def Circle.intersects (self other : Circle) : Prop :=
  (other.center - self.center).lengthSqr
    ≤ (self.radius + other.radius) * (self.radius + other.radius)

instance (self other : Circle) : Decidable (self.intersects other) :=
  inferInstanceAs (Decidable (_ ≤ _))

/-! ## The keyed arena (`src/keyed_set.rs`) -/

/-- `KeyedSet<T>`: a map from keys to values together with the next key
to issue.  The backing `HashMap` is modelled as an association list in
insertion order. -/
structure KeyedSet (T : Type) where
  entries : List (Nat × T)
  next : Nat
deriving DecidableEq

/-- `KeyedSet::new`. -/
def KeyedSet.new {T : Type} : KeyedSet T := ⟨[], 0⟩

/-- `KeyedSet::insert`: issues `next` (`generate_key`), stores the value
under it, increments the counter, and returns the fresh key. -/
def KeyedSet.insert {T : Type} (s : KeyedSet T) (v : T) : Nat × KeyedSet T :=
  (s.next, ⟨s.entries ++ [(s.next, v)], s.next + 1⟩)

/-- `KeyedSet::get`. -/
def KeyedSet.get {T : Type} (s : KeyedSet T) (k : Nat) : Option T :=
  alGet s.entries k

/-- `KeyedSet::remove`, keeping only the resulting set (the returned
`Option` is recoverable as `s.get k`). -/
def KeyedSet.remove {T : Type} (s : KeyedSet T) (k : Nat) : KeyedSet T :=
  ⟨s.entries.filter (fun p => p.1 != k), s.next⟩

/-- `KeyedSet::len`. -/
def KeyedSet.size {T : Type} (s : KeyedSet T) : Nat := s.entries.length

/-- Well-formedness of an arena: every stored key was issued (is below
`next`) and keys are pairwise distinct.  `KeyedSet::new` satisfies this
and every operation preserves it. -/
def KeyedSet.WF {T : Type} (s : KeyedSet T) : Prop :=
  (∀ p ∈ s.entries, p.1 < s.next) ∧ (s.entries.map Prod.fst).Nodup

/-- One client operation on an arena, for stating the arena contract
over arbitrary operation sequences. -/
inductive KSOp (T : Type) where
  | insert (v : T)
  | remove (k : Nat)
deriving DecidableEq

/-- Apply one operation. -/
def KeyedSet.apply {T : Type} (s : KeyedSet T) : KSOp T → KeyedSet T
  | .insert v => (s.insert v).2
  | .remove k => s.remove k

/-- Run a sequence of operations left to right. -/
def KeyedSet.run {T : Type} (s : KeyedSet T) (ops : List (KSOp T)) : KeyedSet T :=
  ops.foldl KeyedSet.apply s

/-! ## The collision world (`src/physics.rs`) -/

/-- `World`: circle storage plus the layer-compatibility matrix
(`CollisionMatrix = HashMap<Layer, LayerMask>`). -/
structure World where
  circles : KeyedSet Circle
  collisionMatrix : List (Nat × Nat)
deriving DecidableEq

/-- `World::layers_collide`: no matrix entry for the left circle's layer
means "collides with everything"; otherwise membership of the right
circle's layer in the left layer's mask.  The test is directional. -/
def layersCollide (matrix : List (Nat × Nat)) (left right : Circle) : Bool :=
  match alGet matrix left.layer with
  | none => true
  | some layerMask => maskContains layerMask right.layer

/-- The collision-partner list one circle accumulates in
`World::collisions_naive`'s inner loop: every *other* circle of the
group that intersects it and whose layer its own matrix entry admits. -/
def collidedList (matrix : List (Nat × Nat)) (circles : List (Nat × Circle))
    (key : Nat) (circle : Circle) : List Nat :=
  circles.foldl
    (fun collided other =>
      if other.1 ≠ key ∧ circle.intersects other.2
          ∧ layersCollide matrix circle other.2 = true
        then collided ++ [other.1] else collided)
    []

/-- `World::collisions_naive`: the all-pairs narrow phase on a group of
circles.  A key gets an entry only when its partner list is nonempty. -/
def collisionsNaive (matrix : List (Nat × Nat)) (circles : List (Nat × Circle)) :
    List (Nat × List Nat) :=
  circles.foldl
    (fun ret p =>
      let collided := collidedList matrix circles p.1 p.2
      if collided.length > 0 then alUpdate ret p.1 collided else ret)
    []

/-- Stable insertion (ties keep the earlier element first) used to model
`sort_by` on `center.x`. -/
def insertByX (e : Nat × Circle) : List (Nat × Circle) → List (Nat × Circle)
  | [] => [e]
  | f :: rest =>
      if e.2.center.x ≤ f.2.center.x then e :: f :: rest else f :: insertByX e rest

/-- Stable sort of the live circles by ascending `center.x`, the model
of `circles.sort_by(|a, b| a.1.center.x.partial_cmp(&b.1.center.x).unwrap())`. -/
def sortByX (l : List (Nat × Circle)) : List (Nat × Circle) :=
  l.foldr insertByX []

/-- `active_interval.iter().any(|other| other.1.intersects_x_axis(circle))`. -/
def anyIntersectsX (e : Nat × Circle) : List (Nat × Circle) → Bool
  | [] => false
  | other :: rest =>
      if other.2.intersectsXAxis e.2 then true else anyIntersectsX e rest

/-- The sweep loop of `World::collisions`: grow the active interval
while the next circle x-overlaps *some* member; otherwise close it
(emitting it only when it holds more than one circle) and restart.  The
final interval is pushed unconditionally. -/
def sweepLoop : List (Nat × Circle) → List (Nat × Circle) →
    List (List (Nat × Circle)) → List (List (Nat × Circle))
  | [], active, acc => acc ++ [active]
  | e :: rest, active, acc =>
      if anyIntersectsX e active = true then
        sweepLoop rest (active ++ [e]) acc
      else
        sweepLoop rest [e] (if active.length > 1 then acc ++ [active] else acc)

/-- `World::collisions`: sweep and prune over the x axis, then the naive
narrow phase within each candidate group, merged into one map. -/
def worldCollisions (matrix : List (Nat × Nat)) (entries : List (Nat × Circle)) :
    List (Nat × List Nat) :=
  match sortByX entries with
  | [] => []
  | c0 :: rest =>
      (sweepLoop rest [c0] []).foldl
        (fun ret group =>
          (collisionsNaive matrix group).foldl (fun ret p => alUpdate ret p.1 p.2) ret)
        []

/-! ## Simulation data (`src/simulation.rs`) -/

/-- `Blob`, without its rendering-only fields (`name`, `color`,
`favorite_color`) and steering weights (`color_attraction`,
`color_repulsion`), which feed only the steering outcome supplied by the
direction oracle (see the module comment). -/
structure Blob where
  aliveTime : ℚ
  speed : ℚ
  rotationSpeed : ℚ
  radius : ℚ
  sightDepth : ℚ
  pov : ℚ
  pos : Vec2
  direction : Vec2
  circle : Nat
  sightCircle : Nat
  hunger : ℚ
  maxHunger : ℚ
  hungerReduction : ℚ
  hungerDivision : ℚ
  attack : ℚ
  defence : ℚ
deriving DecidableEq

/-- `Food`. -/
structure Food where
  pos : Vec2
  circle : Nat
deriving DecidableEq

/-- `CircleObject`: the tag mapping a circle key back to its owner. -/
inductive CircleObject where
  | blob (k : Nat)
  | food (k : Nat)
  | blobSight (k : Nat)
deriving DecidableEq

/-- `Simulation`. -/
structure Simulation where
  size : Vec2
  blobs : KeyedSet Blob
  foods : KeyedSet Food
  objects : List (Nat × CircleObject)
  physics : World
deriving DecidableEq

/-- `Blob::LAYER` (`Layer::new(0)`, bit pattern 1). -/
def Blob.LAYER : Nat := Layer.new 0

/-- `Blob::SIGHT_LAYER` (`Layer::new(1)`, bit pattern 2). -/
def Blob.SIGHT_LAYER : Nat := Layer.new 1

/-- `Food::LAYER` (`Layer::new(2)`, bit pattern 4). -/
def Food.LAYER : Nat := Layer.new 2

/-- `Food::RADIUS`. -/
def Food.RADIUS : ℚ := 5

/-- `Simulation::SELECTION_LAYER` (`Layer::new(4)`, bit pattern 16). -/
def SELECTION_LAYER : Nat := Layer.new 4

/-- The collision matrix installed by `Simulation::new`, insertions in
source order. -/
def simMatrix : List (Nat × Nat) :=
  alUpdate (alUpdate (alUpdate (alUpdate []
    Blob.LAYER (maskNew [Food.LAYER, Blob.LAYER]))
    Food.LAYER 0)
    Blob.SIGHT_LAYER (maskNew [Food.LAYER, Blob.LAYER]))
    SELECTION_LAYER (maskNew [Food.LAYER, Blob.LAYER])

/-- `Simulation::new`. -/
def Simulation.new (size : Vec2) : Simulation :=
  { size := size
    blobs := KeyedSet.new
    foods := KeyedSet.new
    objects := []
    physics := { circles := KeyedSet.new, collisionMatrix := simMatrix } }

/-! ## Blob behaviour (`src/simulation.rs`) -/

/-- `Blob::feed`:
`hunger' = max((hunger - hunger_reduction * max_hunger) / (1 + hunger_division), 0)`. -/
def Blob.feed (b : Blob) : Blob :=
  { b with
      hunger := max ((b.hunger - b.hungerReduction * b.maxHunger) / (1 + b.hungerDivision)) 0 }

/-- `Blob::eat`: feed unconditionally, then remove the food key from the
arena (a no-op when the key is already gone). -/
def Blob.eat (b : Blob) (foods : KeyedSet Food) (food : Nat) :
    Blob × KeyedSet Food :=
  (b.feed, foods.remove food)

/-- First border check of `Blob::step`: `if self.pos().x > world_size.x`,
clamp `x` to the width and negate the direction's `x` component. -/
def borderRight (size : Vec2) (b : Blob) : Blob :=
  if b.pos.x > size.x then
    { b with pos := ⟨size.x, b.pos.y⟩, direction := ⟨-b.direction.x, b.direction.y⟩ }
  else b

/-- Second border check: `if self.pos().y > world_size.y`. -/
def borderBottom (size : Vec2) (b : Blob) : Blob :=
  if b.pos.y > size.y then
    { b with pos := ⟨b.pos.x, size.y⟩, direction := ⟨b.direction.x, -b.direction.y⟩ }
  else b

/-- Third border check: `if self.pos().x < 0.`. -/
def borderLeft (size : Vec2) (b : Blob) : Blob :=
  if b.pos.x < 0 then
    { b with pos := ⟨(0 : ℚ), b.pos.y⟩, direction := ⟨-b.direction.x, b.direction.y⟩ }
  else b

/-- Fourth border check: `if self.pos().y < 0.`. -/
def borderTop (size : Vec2) (b : Blob) : Blob :=
  if b.pos.y < 0 then
    { b with pos := ⟨b.pos.x, (0 : ℚ)⟩, direction := ⟨b.direction.x, -b.direction.y⟩ }
  else b

/-- The body of `Blob::step` after its direction-update block, given the
direction that block produced: advance the position, accumulate hunger,
reflect at the four world edges in source order, accumulate alive time.
The mirroring of the new position into the blob's two circles is applied
at the simulation level (`integrateCircles`). -/
def Blob.stepCore (b : Blob) (newDir : Vec2) (timestep : ℚ) (size : Vec2) : Blob :=
  let moved := { b with
    direction := newDir
    pos := b.pos + (newDir.scale b.speed).scale timestep
    hunger := b.hunger + timestep }
  let bordered := borderTop size (borderLeft size (borderBottom size (borderRight size moved)))
  { bordered with aliveTime := bordered.aliveTime + timestep }

/-! ## Simulation operations (`src/simulation.rs`) -/

/-- `Simulation::insert_blob` (construction parameters that only feed
rendering or the steering oracle are omitted, matching the `Blob`
model). -/
def Simulation.insertBlob (sim : Simulation) (pos : Vec2)
    (radius speed rotationSpeed pov sightDepth maxHunger attack defence
      hungerReduction hungerDivision : ℚ) : Nat × Simulation :=
  let ci := sim.physics.circles.insert ⟨pos, radius, Blob.LAYER⟩
  let si := ci.2.insert ⟨pos, sightDepth, Blob.SIGHT_LAYER⟩
  let blob : Blob :=
    { aliveTime := 0, speed := speed, rotationSpeed := rotationSpeed
      radius := radius, sightDepth := sightDepth, pov := pov
      pos := pos, direction := ⟨0, 0⟩
      circle := ci.1, sightCircle := si.1
      hunger := 0, maxHunger := maxHunger
      hungerReduction := hungerReduction, hungerDivision := hungerDivision
      attack := attack, defence := defence }
  let bi := sim.blobs.insert blob
  (bi.1,
    { sim with
        blobs := bi.2
        objects := alUpdate (alUpdate sim.objects ci.1 (.blob bi.1)) si.1 (.blobSight bi.1)
        physics := { sim.physics with circles := si.2 } })

/-- `Simulation::insert_food`. -/
def Simulation.insertFood (sim : Simulation) (pos : Vec2) : Nat × Simulation :=
  let ci := sim.physics.circles.insert ⟨pos, Food.RADIUS, Food.LAYER⟩
  let fi := sim.foods.insert ⟨pos, ci.1⟩
  (fi.1,
    { sim with
        foods := fi.2
        objects := alUpdate sim.objects ci.1 (.food fi.1)
        physics := { sim.physics with circles := ci.2 } })

/-- `Simulation::remove_blob`: always removes the arena entry for the
key; when a blob was present, also removes its two circles and their
object-map entries. -/
def Simulation.removeBlob (sim : Simulation) (key : Nat) : Option Blob × Simulation :=
  match sim.blobs.get key with
  | none => (none, { sim with blobs := sim.blobs.remove key })
  | some b =>
      (some b,
        { sim with
            blobs := sim.blobs.remove key
            objects := alRemove (alRemove sim.objects b.circle) b.sightCircle
            physics := { sim.physics with
              circles := (sim.physics.circles.remove b.circle).remove b.sightCircle } })

/-- `Simulation::remove_food`. -/
def Simulation.removeFood (sim : Simulation) (key : Nat) : Option Food × Simulation :=
  match sim.foods.get key with
  | none => (none, { sim with foods := sim.foods.remove key })
  | some f =>
      (some f,
        { sim with
            foods := sim.foods.remove key
            objects := alRemove sim.objects f.circle
            physics := { sim.physics with
              circles := sim.physics.circles.remove f.circle } })

/-- The probe circle `Simulation::select` inserts: radius `0.01` on the
selection layer, at the queried point. -/
def selectProbe (pos : Vec2) : Circle := ⟨pos, 1 / 100, SELECTION_LAYER⟩

/-- The classification loop of `Simulation::select`: resolve each circle
the probe collided with through the object map, pushing blob keys and
food keys into the two result lists. -/
def classifySelect (objects : List (Nat × CircleObject)) (collided : List Nat) :
    List Nat × List Nat :=
  collided.foldl
    (fun acc touched =>
      match alGet objects touched with
      | some (.blob b) => (acc.1 ++ [b], acc.2)
      | some (.food f) => (acc.1, acc.2 ++ [f])
      | _ => acc)
    ([], [])

/-- `Simulation::select`: insert the probe, run one collision pass,
remove the probe, classify the probe's partner list.  Returns
`(blob keys, food keys)` and the post-call simulation. -/
def Simulation.select (sim : Simulation) (pos : Vec2) :
    (List Nat × List Nat) × Simulation :=
  let ci := sim.physics.circles.insert (selectProbe pos)
  let cols := worldCollisions sim.physics.collisionMatrix ci.2.entries
  let sim' := { sim with physics := { sim.physics with circles := ci.2.remove ci.1 } }
  match alGet cols ci.1 with
  | some collided => (classifySelect sim.objects collided, sim')
  | none => (([], []), sim')

/-! ## The step pipeline (`Simulation::step`) -/

/-- One iteration of the feeding inner loop: if the touched circle
resolves to a food, the blob eats it (`Blob::eat`). -/
def eatTouchedStep (objects : List (Nat × CircleObject))
    (acc : Blob × KeyedSet Food) (touched : Nat) : Blob × KeyedSet Food :=
  match alGet objects touched with
  | some (.food f) => acc.1.eat acc.2 f
  | _ => acc

/-- The feeding phase: every blob, in arena order, eats every food its
body circle collided with in the snapshot. -/
def eatPhase (cols : List (Nat × List Nat)) (objects : List (Nat × CircleObject))
    (blobs : List (Nat × Blob)) (foods : KeyedSet Food) :
    List (Nat × Blob) × KeyedSet Food :=
  blobs.foldl
    (fun acc kb =>
      let touched := (alGet cols kb.2.circle).getD []
      let eaten := touched.foldl (eatTouchedStep objects) (kb.2, acc.2)
      (acc.1 ++ [(kb.1, eaten.1)], eaten.2))
    ([], foods)

/-- The blob-only effect of the feeding phase on one blob (the feeding
of a blob depends only on the snapshot and the object map, not on the
food arena's current contents). -/
def eatBlob (cols : List (Nat × List Nat)) (objects : List (Nat × CircleObject))
    (b : Blob) : Blob :=
  ((alGet cols b.circle).getD []).foldl
    (fun b touched =>
      match alGet objects touched with
      | some (.food _) => b.feed
      | _ => b)
    b

/-- The fight-collection phase: every unordered pair of blobs whose body
circles touched in the snapshot, deduplicated as `(min, max)` pairs. -/
def fightPairs (cols : List (Nat × List Nat)) (objects : List (Nat × CircleObject))
    (blobs : List (Nat × Blob)) : List (Nat × Nat) :=
  blobs.foldl
    (fun fights kb =>
      ((alGet cols kb.2.circle).getD []).foldl
        (fun fights touched =>
          match alGet objects touched with
          | some (.blob other) =>
              let pair := (min kb.1 other, max kb.1 other)
              if pair ∈ fights then fights else fights ++ [pair]
          | _ => fights)
        fights)
    []

/-- The fight-resolution phase: for each recorded pair, evaluate both
attack directions; a defeated defender is marked for removal at its
current position.  (A pair whose blobs are no longer both live would
make the Rust `unwrap` panic; the model skips it, and `Simulation.WF`
rules the situation out.) -/
def combatRemovals (blobs : KeyedSet Blob) (pairs : List (Nat × Nat)) :
    List (Nat × Vec2) :=
  pairs.foldl
    (fun toRemove pair =>
      match blobs.get pair.1, blobs.get pair.2 with
      | some b1, some b2 =>
          let toRemove := if b1.attack > b2.defence * (1 - b2.hunger / b2.maxHunger)
            then alUpdate toRemove pair.2 b2.pos else toRemove
          if b2.attack > b1.defence * (1 - b1.hunger / b1.maxHunger)
            then alUpdate toRemove pair.1 b1.pos else toRemove
      | _, _ => toRemove)
    []

/-- The integration phase on the blob arena: each blob runs
`Blob::stepCore` with the direction its steering produced (supplied by
the oracle, see the module comment). -/
def integratePhase (oracle : Nat → Blob → Vec2) (blobs : List (Nat × Blob))
    (timestep : ℚ) (size : Vec2) : List (Nat × Blob) :=
  blobs.map (fun kb => (kb.1, kb.2.stepCore (oracle kb.1 kb.2) timestep size))

/-- `get_mut(key).unwrap().center = value` on the circle arena (a miss
is a no-op in the model; `Simulation.WF` rules it out). -/
def KeyedSet.setCenter (s : KeyedSet Circle) (k : Nat) (p : Vec2) : KeyedSet Circle :=
  ⟨s.entries.map (fun e => if e.1 = k then (e.1, { e.2 with center := p }) else e), s.next⟩

/-- Mirror each integrated blob's final position into its body and sight
circles (the net effect of the circle writes inside `Blob::step`). -/
def integrateCircles (blobs : List (Nat × Blob)) (circles : KeyedSet Circle) :
    KeyedSet Circle :=
  blobs.foldl
    (fun cs kb => (cs.setCenter kb.2.circle kb.2.pos).setCenter kb.2.sightCircle kb.2.pos)
    circles

/-- The starvation scan: every blob whose hunger exceeds its maximum is
marked for removal at its current position (overwriting a combat mark
for the same key, as `HashMap::insert` does). -/
def dyingRemovals (blobs : List (Nat × Blob)) (toRemove : List (Nat × Vec2)) :
    List (Nat × Vec2) :=
  blobs.foldl
    (fun toRemove kb =>
      if kb.2.hunger > kb.2.maxHunger then alUpdate toRemove kb.1 kb.2.pos else toRemove)
    toRemove

/-- The removal phase: remove each marked blob and spawn a food at the
recorded position.  (`foods_to_remove` in the source is created empty
and never filled, so it contributes nothing.) -/
def removalPhase (sim : Simulation) (toRemove : List (Nat × Vec2)) : Simulation :=
  toRemove.foldl (fun s p => (((s.removeBlob p.1).2).insertFood p.2).2) sim

/-- The collision snapshot `step` computes once per tick. -/
def Simulation.stepCols (sim : Simulation) : List (Nat × List Nat) :=
  worldCollisions sim.physics.collisionMatrix sim.physics.circles.entries

/-- The blob arena and food arena right after the feeding phase. -/
def Simulation.stepEat (sim : Simulation) : List (Nat × Blob) × KeyedSet Food :=
  eatPhase sim.stepCols sim.objects sim.blobs.entries sim.foods

/-- The blob entries after integration. -/
def Simulation.stepIntegrated (sim : Simulation) (oracle : Nat → Blob → Vec2)
    (timestep : ℚ) : List (Nat × Blob) :=
  integratePhase oracle sim.stepEat.1 timestep sim.size

/-- The final removal map of a tick: combat defeats (computed on the
post-feeding arena) merged with the starvation scan (computed on the
post-integration arena). -/
def Simulation.stepDead (sim : Simulation) (oracle : Nat → Blob → Vec2)
    (timestep : ℚ) : List (Nat × Vec2) :=
  dyingRemovals (sim.stepIntegrated oracle timestep)
    (combatRemovals ⟨sim.stepEat.1, sim.blobs.next⟩
      (fightPairs sim.stepCols sim.objects sim.stepEat.1))

/-- `Simulation::step`: collision snapshot, feeding, fighting,
integration, starvation scan, removals and death-food spawns. -/
def Simulation.step (sim : Simulation) (oracle : Nat → Blob → Vec2)
    (timestep : ℚ) : Simulation :=
  removalPhase
    { sim with
        blobs := ⟨sim.stepIntegrated oracle timestep, sim.blobs.next⟩
        foods := sim.stepEat.2
        physics := { sim.physics with
          circles := integrateCircles (sim.stepIntegrated oracle timestep)
            sim.physics.circles } }
    (sim.stepDead oracle timestep)

/-- Liveness of one object-map entry: a body-circle tag must point to a
live blob (the fight loop dereferences it with `unwrap`). -/
def objLive (blobs : KeyedSet Blob) (o : CircleObject) : Bool :=
  match o with
  | .blob k => (blobs.get k).isSome
  | _ => true

/-- Well-formedness of a simulation state: the three arenas are
well-formed and every body-circle tag in the object map points to a live
blob.  `Simulation::new` establishes this and the public operations
preserve it; theorems about `step` assume it (a state violating it makes
the Rust source panic). -/
def Simulation.WF (sim : Simulation) : Prop :=
  sim.blobs.WF ∧ sim.foods.WF ∧ sim.physics.circles.WF ∧
    ∀ p ∈ sim.objects, objLive sim.blobs p.2 = true

/-! ## Evaluation lemmas for the layer constants -/

theorem simMatrix_eval : simMatrix = [(1, 5), (4, 0), (2, 5), (16, 5)] := by decide

theorem blobLayer_eval : Blob.LAYER = 1 := by decide

theorem sightLayer_eval : Blob.SIGHT_LAYER = 2 := by decide

theorem foodLayer_eval : Food.LAYER = 4 := by decide

theorem selLayer_eval : SELECTION_LAYER = 16 := by decide

theorem maskNew_41 : maskNew [4, 1] = 5 := by decide

theorem maskContains_5_1 : maskContains 5 1 = true := by decide

theorem maskContains_5_2 : maskContains 5 2 = false := by decide

theorem maskContains_5_4 : maskContains 5 4 = true := by decide

theorem maskContains_5_16 : maskContains 5 16 = false := by decide

theorem maskContains_0 (l : Nat) : maskContains 0 l = false := by
  simp [maskContains, Nat.land]

/-! ## Association-list lemmas -/

theorem alGet_alUpdate_ne {α : Type} (l : List (Nat × α)) (k k' : Nat) (v : α)
    (h : k ≠ k') : alGet (alUpdate l k' v) k = alGet l k := by
  induction l with
  | nil => simp [alUpdate, alGet, h]
  | cons p rest ih =>
      by_cases hp : p.1 = k'
      · have hstep : alUpdate (p :: rest) k' v = (k', v) :: rest := by
          simp [alUpdate, hp]
        have hk : k ≠ p.1 := fun hh => h (hh.trans hp)
        rw [hstep]
        simp [alGet, if_neg h, if_neg hk]
      · simp only [alUpdate, if_neg hp]
        by_cases hk : k = p.1
        · simp [alGet, hk]
        · simp [alGet, hk, ih]

theorem mem_alUpdate {α : Type} (l : List (Nat × α)) (k : Nat) (v : α)
    (q : Nat × α) (h : q ∈ alUpdate l k v) : q ∈ l ∨ q.1 = k := by
  induction l with
  | nil =>
      simp [alUpdate] at h
      right; rw [h]
  | cons p rest ih =>
      by_cases hp : p.1 = k
      · simp only [alUpdate, hp, if_pos] at h
        rcases List.mem_cons.1 h with h | h
        · right; rw [h]
        · left; exact List.mem_cons_of_mem _ h
      · simp only [alUpdate, if_neg hp] at h
        rcases List.mem_cons.1 h with h | h
        · left; rw [h]; exact List.mem_cons_self _ _
        · rcases ih h with h | h
          · left; exact List.mem_cons_of_mem _ h
          · right; exact h

theorem alUpdate_keys {α : Type} (l : List (Nat × α)) (k : Nat) (v : α) :
    (alUpdate l k v).map Prod.fst
      = if k ∈ l.map Prod.fst then l.map Prod.fst else l.map Prod.fst ++ [k] := by
  induction l with
  | nil => simp [alUpdate]
  | cons p rest ih =>
      by_cases hp : p.1 = k
      · simp [alUpdate, hp]
      · simp only [alUpdate, if_neg hp, List.map_cons, ih]
        by_cases hk : k ∈ rest.map Prod.fst
        · simp [hk, Ne.symm hp]
        · simp [hk, Ne.symm hp]

theorem alUpdate_keys_nodup {α : Type} (l : List (Nat × α)) (k : Nat) (v : α)
    (h : (l.map Prod.fst).Nodup) : ((alUpdate l k v).map Prod.fst).Nodup := by
  rw [alUpdate_keys]
  by_cases hk : k ∈ l.map Prod.fst
  · simpa [hk]
  · simp only [hk, if_false]
    simpa [List.nodup_append, hk] using h

theorem mem_keys_alUpdate_self {α : Type} (l : List (Nat × α)) (k : Nat) (v : α) :
    k ∈ (alUpdate l k v).map Prod.fst := by
  rw [alUpdate_keys]
  by_cases hk : k ∈ l.map Prod.fst <;> simp [hk]

theorem mem_keys_alUpdate_mono {α : Type} (l : List (Nat × α)) (k k' : Nat) (v : α)
    (h : k' ∈ l.map Prod.fst) : k' ∈ (alUpdate l k v).map Prod.fst := by
  rw [alUpdate_keys]
  by_cases hk : k ∈ l.map Prod.fst <;> simp [hk, h]

theorem alGet_mem {α : Type} (l : List (Nat × α)) (k : Nat) (v : α)
    (h : alGet l k = some v) : (k, v) ∈ l := by
  induction l with
  | nil => simp [alGet] at h
  | cons p rest ih =>
      by_cases hp : k = p.1
      · simp only [alGet, hp, if_pos] at h
        have hv : p.2 = v := Option.some_inj.1 h
        have : (k, v) = p := by
          cases p
          simp_all
        rw [this]
        exact List.mem_cons_self _ _
      · simp only [alGet, hp, if_false] at h
        exact List.mem_cons_of_mem _ (ih h)

theorem alGet_none_of_not_mem_keys {α : Type} (l : List (Nat × α)) (k : Nat)
    (h : k ∉ l.map Prod.fst) : alGet l k = none := by
  induction l with
  | nil => rfl
  | cons p rest ih =>
      simp only [List.map_cons, List.mem_cons] at h
      push_neg at h
      simp only [alGet, if_neg h.1]
      exact ih h.2

theorem alGet_eq_none_iff {α : Type} (l : List (Nat × α)) (k : Nat) :
    alGet l k = none ↔ k ∉ l.map Prod.fst := by
  constructor
  · intro h hk
    induction l with
    | nil => simp at hk
    | cons p rest ih =>
        by_cases hp : k = p.1
        · simp [alGet, hp] at h
        · simp only [alGet, hp, if_false] at h
          simp only [List.map_cons, List.mem_cons] at hk
          rcases hk with hk | hk
          · exact hp hk
          · exact ih h hk
  · exact alGet_none_of_not_mem_keys l k

theorem alGet_of_mem_nodup {α : Type} (l : List (Nat × α)) (k : Nat) (v : α)
    (hnd : (l.map Prod.fst).Nodup) (hm : (k, v) ∈ l) : alGet l k = some v := by
  induction l with
  | nil => simp at hm
  | cons p rest ih =>
      simp only [List.map_cons, List.nodup_cons] at hnd
      rcases List.mem_cons.1 hm with hm | hm
      · rw [← hm]
        simp [alGet]
      · have hk : k ≠ p.1 := by
          intro hk
          exact hnd.1 (hk ▸ List.mem_map_of_mem Prod.fst hm)
        simp only [alGet, if_neg hk]
        exact ih hnd.2 hm

theorem alGet_append_some {α : Type} (l1 l2 : List (Nat × α)) (k : Nat) (v : α)
    (h : alGet l1 k = some v) : alGet (l1 ++ l2) k = some v := by
  induction l1 with
  | nil => simp [alGet] at h
  | cons p rest ih =>
      by_cases hp : k = p.1
      · simp only [alGet, hp, if_pos] at h ⊢
        exact h
      · simp only [alGet, hp, if_false] at h ⊢
        exact ih h

theorem alGet_append_none {α : Type} (l1 l2 : List (Nat × α)) (k : Nat)
    (h : alGet l1 k = none) : alGet (l1 ++ l2) k = alGet l2 k := by
  induction l1 with
  | nil => rfl
  | cons p rest ih =>
      by_cases hp : k = p.1
      · simp [alGet, hp] at h
      · simp only [alGet, hp, if_false] at h
        rw [List.cons_append]
        simp only [alGet, if_neg hp]
        exact ih h

theorem alGet_filter_none {α : Type} (l : List (Nat × α)) (k : Nat)
    (q : Nat × α → Bool) (h : alGet l k = none) : alGet (l.filter q) k = none := by
  rw [alGet_eq_none_iff] at h ⊢
  intro hk
  exact h (((l.filter_sublist).map Prod.fst).mem hk)

theorem alGet_filter_ne {α : Type} (l : List (Nat × α)) (k k' : Nat) (h : k ≠ k') :
    alGet (l.filter (fun p => p.1 != k')) k = alGet l k := by
  induction l with
  | nil => rfl
  | cons p rest ih =>
      by_cases hp : p.1 = k'
      · have : (p.1 != k') = false := by simp [hp]
        simp only [List.filter_cons, this, if_false, Bool.false_eq_true]
        rw [ih]
        have hk : k ≠ p.1 := fun hk => h (hk.trans hp)
        simp [alGet, hk]
      · have : (p.1 != k') = true := by simp [hp]
        simp only [List.filter_cons, this, if_true]
        by_cases hk : k = p.1
        · simp [alGet, hk]
        · simp only [alGet, if_neg hk]
          exact ih

theorem alGet_filter_self {α : Type} (l : List (Nat × α)) (k : Nat) :
    alGet (l.filter (fun p => p.1 != k)) k = none := by
  rw [alGet_eq_none_iff]
  intro hk
  rcases List.mem_map.1 hk with ⟨p, hp, hpk⟩
  rcases List.mem_filter.1 hp with ⟨-, hne⟩
  rw [hpk] at hne
  simp at hne

theorem keys_filter_nodup {α : Type} (l : List (Nat × α)) (q : Nat × α → Bool)
    (h : (l.map Prod.fst).Nodup) : ((l.filter q).map Prod.fst).Nodup :=
  h.sublist ((l.filter_sublist).map Prod.fst)

theorem mem_keys_filter {α : Type} (l : List (Nat × α)) (k k' : Nat)
    (h : k ∈ l.map Prod.fst) (hne : k ≠ k') :
    k ∈ (l.filter (fun p => p.1 != k')).map Prod.fst := by
  rcases List.mem_map.1 h with ⟨p, hp, hpk⟩
  refine List.mem_map.2 ⟨p, List.mem_filter.2 ⟨hp, ?_⟩, hpk⟩
  simp [hpk, hne]

theorem filter_ne_length {α : Type} (l : List (Nat × α)) (k : Nat)
    (hnd : (l.map Prod.fst).Nodup) (hmem : k ∈ l.map Prod.fst) :
    (l.filter (fun p => p.1 != k)).length + 1 = l.length := by
  induction l with
  | nil => simp at hmem
  | cons p rest ih =>
      simp only [List.map_cons, List.nodup_cons] at hnd
      by_cases hp : p.1 = k
      · have hb : (p.1 != k) = false := by simp [hp]
        simp only [List.filter_cons, hb, Bool.false_eq_true, if_false, List.length_cons]
        have hrest : rest.filter (fun p => p.1 != k) = rest := by
          rw [List.filter_eq_self]
          intro a ha
          have : a.1 ≠ k := by
            intro hak
            exact hnd.1 (hp ▸ hak ▸ List.mem_map_of_mem Prod.fst ha)
          simp [this]
        rw [hrest]
      · have hb : (p.1 != k) = true := by simp [hp]
        simp only [List.filter_cons, hb, if_true, List.length_cons]
        have hmem' : k ∈ rest.map Prod.fst := by
          rcases List.mem_cons.1 hmem with h | h
          · exact absurd h.symm hp
          · exact h
        rw [← ih hnd.2 hmem']

/-! ## Sweep-and-prune structure lemmas -/

theorem mem_insertByX (e p : Nat × Circle) (l : List (Nat × Circle)) :
    p ∈ insertByX e l ↔ p = e ∨ p ∈ l := by
  induction l with
  | nil => simp [insertByX]
  | cons f rest ih =>
      simp only [insertByX]
      by_cases hc : e.2.center.x ≤ f.2.center.x
      · rw [if_pos hc]
        simp only [List.mem_cons]
      · rw [if_neg hc]
        simp only [List.mem_cons, ih]
        tauto

theorem mem_sortByX (l : List (Nat × Circle)) (p : Nat × Circle) :
    p ∈ sortByX l ↔ p ∈ l := by
  induction l with
  | nil => simp [sortByX]
  | cons e rest ih =>
      simp only [sortByX, List.foldr_cons]
      rw [show List.foldr insertByX [] rest = sortByX rest from rfl] at *
      rw [mem_insertByX, ih, List.mem_cons]

theorem sweepLoop_mem (rest : List (Nat × Circle)) :
    ∀ (active : List (Nat × Circle)) (acc : List (List (Nat × Circle)))
      (g : List (Nat × Circle)) (e : Nat × Circle),
      g ∈ sweepLoop rest active acc → e ∈ g →
      e ∈ rest ∨ e ∈ active ∨ ∃ g' ∈ acc, e ∈ g' := by
  induction rest with
  | nil =>
      intro active acc g e hg he
      simp only [sweepLoop] at hg
      rcases List.mem_append.1 hg with hg | hg
      · right; right; exact ⟨g, hg, he⟩
      · right; left
        rw [List.mem_singleton.1 hg] at he
        exact he
  | cons c rest ih =>
      intro active acc g e hg he
      simp only [sweepLoop] at hg
      split at hg
      · rcases ih _ _ _ _ hg he with h | h | h
        · left; exact List.mem_cons_of_mem _ h
        · rcases List.mem_append.1 h with h | h
          · right; left; exact h
          · left
            rw [List.mem_singleton.1 h]
            exact List.mem_cons_self _ _
        · right; right; exact h
      · rcases ih _ _ _ _ hg he with h | h | h
        · left; exact List.mem_cons_of_mem _ h
        · left
          rw [List.mem_singleton.1 h]
          exact List.mem_cons_self _ _
        · rcases h with ⟨g', hg', heg⟩
          by_cases hl : active.length > 1
          · rw [if_pos hl] at hg'
            rcases List.mem_append.1 hg' with h | h
            · right; right; exact ⟨g', h, heg⟩
            · right; left
              rw [List.mem_singleton.1 h] at heg
              exact heg
          · rw [if_neg hl] at hg'
            right; right; exact ⟨g', hg', heg⟩

/-! ## The Food layer mask is empty -/

theorem layersCollide_food (c other : Circle) (h : c.layer = Food.LAYER) :
    layersCollide simMatrix c other = false := by
  rw [layersCollide, h, simMatrix_eval, foodLayer_eval]
  rw [show alGet [(1, 5), (4, 0), (2, 5), (16, 5)] 4 = some 0 by rfl]
  exact maskContains_0 other.layer

theorem collidedList_food (g : List (Nat × Circle)) (k : Nat) (c : Circle)
    (h : c.layer = Food.LAYER) : collidedList simMatrix g k c = [] := by
  unfold collidedList
  induction g with
  | nil => rfl
  | cons e rest ih =>
      simp only [List.foldl_cons]
      rw [if_neg]
      · exact ih
      · rintro ⟨-, -, hl⟩
        rw [layersCollide_food c e.2 h] at hl
        exact Bool.false_ne_true hl

theorem collisionsNaive_food_key (g : List (Nat × Circle)) (k : Nat)
    (hfood : ∀ c, (k, c) ∈ g → c.layer = Food.LAYER) :
    ∀ p ∈ collisionsNaive simMatrix g, p.1 ≠ k := by
  unfold collisionsNaive
  have main : ∀ (l : List (Nat × Circle)), (∀ p ∈ l, p ∈ g) →
      ∀ (acc : List (Nat × List Nat)), (∀ q ∈ acc, q.1 ≠ k) →
      ∀ q ∈ l.foldl
        (fun ret p =>
          let collided := collidedList simMatrix g p.1 p.2
          if collided.length > 0 then alUpdate ret p.1 collided else ret) acc,
        q.1 ≠ k := by
    intro l
    induction l with
    | nil => intro _ acc hacc q hq; exact hacc q hq
    | cons p rest ih =>
        intro hsub acc hacc q hq
        simp only [List.foldl_cons] at hq
        by_cases hp : p.1 = k
        · have hlayer : p.2.layer = Food.LAYER :=
            hfood p.2 (by rw [← hp]; exact hsub p (List.mem_cons_self _ _))
          rw [hp, collidedList_food g k p.2 hlayer] at hq
          simp only [List.length_nil, gt_iff_lt, lt_irrefl, if_false] at hq
          exact ih (fun r hr => hsub r (List.mem_cons_of_mem _ hr)) acc hacc q hq
        · refine ih (fun r hr => hsub r (List.mem_cons_of_mem _ hr)) _ ?_ q hq
          intro r hr
          split at hr
          · rcases mem_alUpdate _ _ _ _ hr with h | h
            · exact hacc r h
            · rw [h]; exact hp
          · exact hacc r hr
  exact main g (fun p hp => hp) [] (by intro q hq; simp at hq)

theorem alGet_foldl_alUpdate_none {α : Type} (l : List (Nat × α))
    (init : List (Nat × α)) (k : Nat) (hinit : alGet init k = none)
    (hl : ∀ p ∈ l, p.1 ≠ k) :
    alGet (l.foldl (fun ret p => alUpdate ret p.1 p.2) init) k = none := by
  induction l generalizing init with
  | nil => exact hinit
  | cons p rest ih =>
      simp only [List.foldl_cons]
      refine ih _ ?_ (fun r hr => hl r (List.mem_cons_of_mem _ hr))
      rw [alGet_alUpdate_ne]
      · exact hinit
      · exact fun h => hl p (List.mem_cons_self _ _) h.symm

/-- Claim C10: in the collision matrix installed by `Simulation::new`,
the Food layer's mask is empty, so the map returned by `collisions()`
never contains an entry keyed by a circle on the Food layer (in
particular by any Food's circle). -/
theorem collisions_no_food_entry (entries : List (Nat × Circle)) (k : Nat)
    (hfood : ∀ c, (k, c) ∈ entries → c.layer = Food.LAYER) :
    alGet (worldCollisions simMatrix entries) k = none := by
  unfold worldCollisions
  cases hs : sortByX entries with
  | nil => rfl
  | cons c0 rest =>
      have hsorted : ∀ p ∈ sortByX entries, p ∈ entries :=
        fun p hp => (mem_sortByX entries p).1 hp
      have hgroups : ∀ g ∈ sweepLoop rest [c0] [], ∀ e ∈ g, e ∈ entries := by
        intro g hg e he
        rcases sweepLoop_mem rest [c0] [] g e hg he with h | h | h
        · exact hsorted e (by rw [hs]; exact List.mem_cons_of_mem _ h)
        · rw [List.mem_singleton.1 h]
          exact hsorted c0 (by rw [hs]; exact List.mem_cons_self _ _)
        · rcases h with ⟨g', hg', -⟩
          simp at hg'
      have main : ∀ (gs : List (List (Nat × Circle))),
          (∀ g ∈ gs, ∀ e ∈ g, e ∈ entries) →
          ∀ (init : List (Nat × List Nat)), alGet init k = none →
          alGet (gs.foldl
            (fun ret group =>
              (collisionsNaive simMatrix group).foldl
                (fun ret p => alUpdate ret p.1 p.2) ret) init) k = none := by
        intro gs
        induction gs with
        | nil => intro _ init hinit; exact hinit
        | cons g gs ih =>
            intro hsub init hinit
            simp only [List.foldl_cons]
            refine ih (fun g' hg' => hsub g' (List.mem_cons_of_mem _ hg')) _ ?_
            refine alGet_foldl_alUpdate_none _ _ _ hinit ?_
            exact collisionsNaive_food_key g k
              (fun c hc => hfood c (hsub g (List.mem_cons_self _ _) (k, c) hc))
      exact main _ hgroups [] rfl

/-- Witness for C10 at a concrete state: a Food circle overlapping a
blob circle still gets no entry of its own. -/
theorem collisions_no_food_entry_witness :
    alGet (worldCollisions simMatrix
      [(0, ⟨⟨0,0⟩, 5, Food.LAYER⟩), (1, ⟨⟨1,0⟩, 1, Blob.LAYER⟩)]) 0 = none := by
  refine collisions_no_food_entry _ 0 ?_
  intro c hc
  rcases List.mem_cons.1 hc with h | h
  · injection h with h1 h2
    rw [h2]
  · rw [List.mem_singleton] at h
    injection h with h1 h2
    exact absurd h1 (by norm_num)

/-! ## Claim C1: the sweep-and-prune broad phase loses collisions -/

/-- Three live circles on one unrestricted layer (the collision matrix
is empty, as in `World::new(CollisionMatrix::new())` and the source's
own unit tests): A at (0,0) with radius 1, C at (4,0) with radius 1, B
at (5,0) with radius 5.  A and B intersect, but C sits between them on
the x axis without x-overlapping A, so the sweep closes the singleton
interval `[A]` and never compares A with B. -/
def exC1 : List (Nat × Circle) :=
  [(0, ⟨⟨0, 0⟩, 1, Layer.new 0⟩), (1, ⟨⟨4, 0⟩, 1, Layer.new 0⟩),
    (2, ⟨⟨5, 0⟩, 5, Layer.new 0⟩)]

/-- Claim C1: `collisions()` is claimed to equal the naive all-pairs
computation on every state.  It does not: on `exC1` the sweep result has
no entry for circle 0 although circle 0 geometrically intersects circle
2 (their layers are unrestricted), while `collisions_naive` reports the
pair; the two maps differ.  The sweep's active-interval rule closes the
interval `[A]` when C fails to x-overlap A, and B, which does x-overlap
A, is only ever compared within the later interval `[C, B]`. -/
theorem collisions_misses_intersecting_pair :
    alGet (worldCollisions [] exC1) 0 = none
    ∧ alGet (collisionsNaive [] exC1) 0 = some [2]
    ∧ Circle.intersects ⟨⟨0, 0⟩, 1, Layer.new 0⟩ ⟨⟨5, 0⟩, 5, Layer.new 0⟩
    ∧ worldCollisions [] exC1 ≠ collisionsNaive [] exC1 := by
  have hsweep : worldCollisions [] exC1 = [(1, [2]), (2, [1])] := by
    norm_num [exC1, worldCollisions, sortByX, insertByX, sweepLoop, anyIntersectsX,
      Circle.intersectsXAxis, Circle.intersects, collisionsNaive, collidedList,
      layersCollide, Vec2.lengthSqr, Vec2.sub_def, alGet, alUpdate]
  have hnaive : collisionsNaive [] exC1 = [(0, [2]), (1, [2]), (2, [0, 1])] := by
    norm_num [exC1, collisionsNaive, collidedList, layersCollide, Circle.intersects,
      Vec2.lengthSqr, Vec2.sub_def, alGet, alUpdate]
  refine ⟨?_, ?_, ?_, ?_⟩
  · rw [hsweep]
    norm_num [alGet]
  · rw [hnaive]
    norm_num [alGet]
  · norm_num [Circle.intersects, Vec2.lengthSqr, Vec2.sub_def]
  · rw [hsweep, hnaive]
    intro h
    exact absurd (congrArg List.length h) (by norm_num)

/-! ## Claim C8: the arena contract -/

theorem KeyedSet.apply_WF {T : Type} (s : KeyedSet T) (op : KSOp T) (h : s.WF) :
    (s.apply op).WF := by
  cases op with
  | insert v =>
      constructor
      · intro p hp
        simp only [KeyedSet.apply, KeyedSet.insert] at hp ⊢
        rcases List.mem_append.1 hp with hp | hp
        · exact Nat.lt_succ_of_lt (h.1 p hp)
        · rw [List.mem_singleton.1 hp]
          exact Nat.lt_succ_self _
      · simp only [KeyedSet.apply, KeyedSet.insert, List.map_append, List.map_cons,
          List.map_nil]
        rw [List.nodup_append]
        refine ⟨h.2, List.nodup_singleton _, ?_⟩
        intro a ha hb
        rw [List.mem_singleton] at hb
        rcases List.mem_map.1 ha with ⟨p, hp, hpa⟩
        exact Nat.lt_irrefl _ (hb ▸ hpa ▸ h.1 p hp)
  | remove k =>
      constructor
      · intro p hp
        exact h.1 p ((s.entries.filter_sublist).mem hp)
      · exact keys_filter_nodup _ _ h.2

theorem KeyedSet.apply_next_mono {T : Type} (s : KeyedSet T) (op : KSOp T) :
    s.next ≤ (s.apply op).next := by
  cases op with
  | insert v => exact Nat.le_succ _
  | remove k => exact Nat.le_refl _

theorem KeyedSet.run_WF {T : Type} (s : KeyedSet T) (ops : List (KSOp T)) (h : s.WF) :
    (s.run ops).WF ∧ s.next ≤ (s.run ops).next := by
  induction ops generalizing s with
  | nil => exact ⟨h, Nat.le_refl _⟩
  | cons op rest ih =>
      rcases ih (s.apply op) (s.apply_WF op h) with ⟨hwf, hnext⟩
      exact ⟨hwf, Nat.le_trans (s.apply_next_mono op) hnext⟩

theorem KeyedSet.run_get_some {T : Type} (s : KeyedSet T) (ops : List (KSOp T))
    (k : Nat) (v : T) (hget : s.get k = some v)
    (hops : ∀ op ∈ ops, op ≠ KSOp.remove k) : (s.run ops).get k = some v := by
  induction ops generalizing s with
  | nil => exact hget
  | cons op rest ih =>
      refine ih (s.apply op) ?_ (fun o ho => hops o (List.mem_cons_of_mem _ ho))
      cases op with
      | insert w => exact alGet_append_some _ _ _ _ hget
      | remove k' =>
          have hne : k ≠ k' := by
            intro h
            exact hops (KSOp.remove k') (List.mem_cons_self _ _) (by rw [h])
          simpa [KeyedSet.apply, KeyedSet.remove, KeyedSet.get] using
            (alGet_filter_ne s.entries k k' hne).trans hget

theorem KeyedSet.run_get_none {T : Type} (s : KeyedSet T) (ops : List (KSOp T))
    (k : Nat) (hk : k < s.next) (hget : s.get k = none) :
    (s.run ops).get k = none := by
  induction ops generalizing s with
  | nil => exact hget
  | cons op rest ih =>
      refine ih (s.apply op) (Nat.lt_of_lt_of_le hk (s.apply_next_mono op)) ?_
      cases op with
      | insert w =>
          show alGet (s.entries ++ [(s.next, w)]) k = none
          rw [alGet_append_none _ _ _ hget]
          simp [alGet, Nat.ne_of_lt hk]
      | remove k' => exact alGet_filter_none _ _ _ hget

theorem KeyedSet.WF_get_next_none {T : Type} (s : KeyedSet T) (h : s.WF) :
    s.get s.next = none := by
  cases hg : s.get s.next with
  | none => rfl
  | some v =>
      exact absurd (h.1 _ (alGet_mem _ _ _ hg)) (Nat.lt_irrefl _)

/-- Claim C8: over every operation sequence on a well-formed arena,
`get` returns an inserted value until exactly that key is removed and
absent forever afterwards; the arena stays well-formed, the key counter
never decreases, the next issued key is always fresh, and a key that was
ever issued (is below the starting counter) is never reissued. -/
theorem keyedSet_contract {T : Type} (s : KeyedSet T) (ops : List (KSOp T))
    (k : Nat) (v w : T) (hwf : s.WF) :
    ((s.get k = some v ∧ ∀ op ∈ ops, op ≠ KSOp.remove k) →
        (s.run ops).get k = some v)
    ∧ ((k < s.next ∧ s.get k = none) → (s.run ops).get k = none)
    ∧ ((s.run ops).WF ∧ s.next ≤ (s.run ops).next)
    ∧ ((s.run ops).get ((s.run ops).insert w).1 = none)
    ∧ (k < s.next → ((s.run ops).insert w).1 ≠ k) := by
  refine ⟨fun h => s.run_get_some ops k v h.1 h.2,
    fun h => s.run_get_none ops k h.1 h.2,
    s.run_WF ops hwf, ?_, ?_⟩
  · exact (s.run ops).WF_get_next_none (s.run_WF ops hwf).1
  · intro hk h
    have hle : s.next ≤ (s.run ops).next := (s.run_WF ops hwf).2
    have h' : (s.run ops).next = k := h
    rw [h'] at hle
    exact absurd hk (Nat.not_lt.2 hle)

/-- Witness for C8: a concrete arena holding value 5 under key 0; after
an unrelated insert and an unrelated remove, key 0 still yields 5, and
the next key to be issued is fresh. -/
theorem keyedSet_contract_witness :
    ((⟨[(0, 5)], 1⟩ : KeyedSet Nat).run [KSOp.insert 7, KSOp.remove 1]).get 0 = some 5
    ∧ (((⟨[(0, 5)], 1⟩ : KeyedSet Nat).run
        [KSOp.insert 7, KSOp.remove 1]).insert 9).1 ≠ 0 := by
  refine ⟨(keyedSet_contract ⟨[(0, 5)], 1⟩ [KSOp.insert 7, KSOp.remove 1] 0 5 9
      ⟨by decide, by decide⟩).1 ⟨by decide, by decide⟩,
    (keyedSet_contract ⟨[(0, 5)], 1⟩ [KSOp.insert 7, KSOp.remove 1] 0 5 9
      ⟨by decide, by decide⟩).2.2.2.2 (by decide)⟩

/-! ## Border reflection lemmas (`Blob::step`, claim C7) -/

theorem borderRight_hunger (size : Vec2) (b : Blob) :
    (borderRight size b).hunger = b.hunger := by
  unfold borderRight; split <;> rfl

theorem borderBottom_hunger (size : Vec2) (b : Blob) :
    (borderBottom size b).hunger = b.hunger := by
  unfold borderBottom; split <;> rfl

theorem borderLeft_hunger (size : Vec2) (b : Blob) :
    (borderLeft size b).hunger = b.hunger := by
  unfold borderLeft; split <;> rfl

theorem borderTop_hunger (size : Vec2) (b : Blob) :
    (borderTop size b).hunger = b.hunger := by
  unfold borderTop; split <;> rfl

theorem borderRight_y (size : Vec2) (b : Blob) :
    (borderRight size b).pos.y = b.pos.y
    ∧ (borderRight size b).direction.y = b.direction.y := by
  unfold borderRight; split <;> exact ⟨rfl, rfl⟩

theorem borderBottom_x (size : Vec2) (b : Blob) :
    (borderBottom size b).pos.x = b.pos.x
    ∧ (borderBottom size b).direction.x = b.direction.x := by
  unfold borderBottom; split <;> exact ⟨rfl, rfl⟩

theorem borderLeft_y (size : Vec2) (b : Blob) :
    (borderLeft size b).pos.y = b.pos.y
    ∧ (borderLeft size b).direction.y = b.direction.y := by
  unfold borderLeft; split <;> exact ⟨rfl, rfl⟩

theorem borderTop_x (size : Vec2) (b : Blob) :
    (borderTop size b).pos.x = b.pos.x
    ∧ (borderTop size b).direction.x = b.direction.x := by
  unfold borderTop; split <;> exact ⟨rfl, rfl⟩

theorem borderRight_of_gt (size : Vec2) (b : Blob) (h : b.pos.x > size.x) :
    (borderRight size b).pos.x = size.x
    ∧ (borderRight size b).direction.x = -b.direction.x := by
  unfold borderRight
  rw [if_pos h]
  exact ⟨rfl, rfl⟩

theorem borderRight_of_le (size : Vec2) (b : Blob) (h : ¬ b.pos.x > size.x) :
    borderRight size b = b := if_neg h

theorem borderBottom_of_gt (size : Vec2) (b : Blob) (h : b.pos.y > size.y) :
    (borderBottom size b).pos.y = size.y
    ∧ (borderBottom size b).direction.y = -b.direction.y := by
  unfold borderBottom
  rw [if_pos h]
  exact ⟨rfl, rfl⟩

theorem borderBottom_of_le (size : Vec2) (b : Blob) (h : ¬ b.pos.y > size.y) :
    borderBottom size b = b := if_neg h

theorem borderLeft_of_lt (size : Vec2) (b : Blob) (h : b.pos.x < 0) :
    (borderLeft size b).pos.x = 0
    ∧ (borderLeft size b).direction.x = -b.direction.x := by
  unfold borderLeft
  rw [if_pos h]
  exact ⟨rfl, rfl⟩

theorem borderLeft_of_ge (size : Vec2) (b : Blob) (h : ¬ b.pos.x < 0) :
    borderLeft size b = b := if_neg h

theorem borderTop_of_lt (size : Vec2) (b : Blob) (h : b.pos.y < 0) :
    (borderTop size b).pos.y = 0
    ∧ (borderTop size b).direction.y = -b.direction.y := by
  unfold borderTop
  rw [if_pos h]
  exact ⟨rfl, rfl⟩

theorem borderTop_of_ge (size : Vec2) (b : Blob) (h : ¬ b.pos.y < 0) :
    borderTop size b = b := if_neg h

/-- The position `Blob::step` integrates before the border checks. -/
def movedPos (b : Blob) (newDir : Vec2) (timestep : ℚ) : Vec2 :=
  b.pos + (newDir.scale b.speed).scale timestep

/-- The blob state right after integration, before the border checks. -/
def movedBlob (b : Blob) (newDir : Vec2) (timestep : ℚ) : Blob :=
  { b with direction := newDir, pos := movedPos b newDir timestep,
           hunger := b.hunger + timestep }

theorem stepCore_eq (b : Blob) (newDir : Vec2) (timestep : ℚ) (size : Vec2) :
    b.stepCore newDir timestep size
      = { borderTop size (borderLeft size (borderBottom size (borderRight size
            (movedBlob b newDir timestep)))) with
          aliveTime := (borderTop size (borderLeft size (borderBottom size
            (borderRight size (movedBlob b newDir timestep))))).aliveTime + timestep } :=
  rfl

theorem stepCore_hunger (b : Blob) (newDir : Vec2) (timestep : ℚ) (size : Vec2) :
    (b.stepCore newDir timestep size).hunger = b.hunger + timestep := by
  rw [stepCore_eq]
  show (borderTop size (borderLeft size (borderBottom size (borderRight size
    (movedBlob b newDir timestep))))).hunger = b.hunger + timestep
  rw [borderTop_hunger, borderLeft_hunger, borderBottom_hunger, borderRight_hunger]
  rfl

/-- Claim C7: a blob whose integrated position leaves the arena on any
of the four edges has the offending coordinate clamped to that edge and
the corresponding component of its (post-steering) direction negated
(`size` is the world extent, nonnegative in both coordinates). -/
theorem step_border_reflection (b : Blob) (d : Vec2) (timestep : ℚ) (size : Vec2)
    (hx : 0 ≤ size.x) (hy : 0 ≤ size.y) :
    ((movedPos b d timestep).x > size.x →
        (b.stepCore d timestep size).pos.x = size.x
        ∧ (b.stepCore d timestep size).direction.x = -d.x)
    ∧ ((movedPos b d timestep).x < 0 →
        (b.stepCore d timestep size).pos.x = 0
        ∧ (b.stepCore d timestep size).direction.x = -d.x)
    ∧ ((movedPos b d timestep).y > size.y →
        (b.stepCore d timestep size).pos.y = size.y
        ∧ (b.stepCore d timestep size).direction.y = -d.y)
    ∧ ((movedPos b d timestep).y < 0 →
        (b.stepCore d timestep size).pos.y = 0
        ∧ (b.stepCore d timestep size).direction.y = -d.y) := by
  have hm : (movedBlob b d timestep).pos = movedPos b d timestep := rfl
  have hmd : (movedBlob b d timestep).direction = d := rfl
  set m := movedBlob b d timestep with hmdef
  refine ⟨?_, ?_, ?_, ?_⟩
  · intro h
    rw [stepCore_eq]
    have h1 := borderRight_of_gt size m (by rw [hm]; exact h)
    set m1 := borderRight size m
    have h2 := borderBottom_x size m1
    set m2 := borderBottom size m1
    have h3 : borderLeft size m2 = m2 := by
      refine borderLeft_of_ge size m2 ?_
      rw [h2.1, h1.1]
      exact not_lt.2 hx
    rw [h3]
    have h4 := borderTop_x size m2
    refine ⟨?_, ?_⟩
    · show (borderTop size m2).pos.x = size.x
      rw [h4.1, h2.1, h1.1]
    · show (borderTop size m2).direction.x = -d.x
      rw [h4.2, h2.2, h1.2, hmd]
  · intro h
    rw [stepCore_eq]
    have h1 : borderRight size m = m := by
      refine borderRight_of_le size m ?_
      rw [hm]
      exact not_lt.2 (le_trans (le_of_lt h) hx)
    rw [h1]
    have h2 := borderBottom_x size m
    set m2 := borderBottom size m
    have h3 := borderLeft_of_lt size m2 (by rw [h2.1, hm]; exact h)
    set m3 := borderLeft size m2
    have h4 := borderTop_x size m3
    refine ⟨?_, ?_⟩
    · show (borderTop size m3).pos.x = 0
      rw [h4.1, h3.1]
    · show (borderTop size m3).direction.x = -d.x
      rw [h4.2, h3.2, h2.2, hmd]
  · intro h
    rw [stepCore_eq]
    have h1 := borderRight_y size m
    set m1 := borderRight size m
    have h2 := borderBottom_of_gt size m1 (by rw [h1.1, hm]; exact h)
    set m2 := borderBottom size m1
    have h3 := borderLeft_y size m2
    set m3 := borderLeft size m2
    have h4 : borderTop size m3 = m3 := by
      refine borderTop_of_ge size m3 ?_
      rw [h3.1, h2.1]
      exact not_lt.2 hy
    rw [h4]
    refine ⟨?_, ?_⟩
    · show m3.pos.y = size.y
      rw [h3.1, h2.1]
    · show m3.direction.y = -d.y
      rw [h3.2, h2.2, h1.2, hmd]
  · intro h
    rw [stepCore_eq]
    have h1 := borderRight_y size m
    set m1 := borderRight size m
    have h2 : borderBottom size m1 = m1 := by
      refine borderBottom_of_le size m1 ?_
      rw [h1.1, hm]
      exact not_lt.2 (le_trans (le_of_lt h) hy)
    rw [h2]
    have h3 := borderLeft_y size m1
    set m3 := borderLeft size m1
    have h4 := borderTop_of_lt size m3 (by rw [h3.1, h1.1, hm]; exact h)
    refine ⟨?_, ?_⟩
    · exact h4.1
    · rw [h4.2, h3.2, h1.2, hmd]

/-- Witness for C7: a concrete blob stepping past the right edge is
clamped to `x = 100` with its direction's `x` component negated. -/
theorem step_border_reflection_witness :
    (movedPos ⟨0, 7, 1, 1, 1, 1, ⟨99, 50⟩, ⟨1, 0⟩, 0, 1, 0, 10, 0, 0, 0, 0⟩ ⟨1, 0⟩ 1).x > 100
    ∧ ((⟨0, 7, 1, 1, 1, 1, ⟨99, 50⟩, ⟨1, 0⟩, 0, 1, 0, 10, 0, 0, 0, 0⟩ :
        Blob).stepCore ⟨1, 0⟩ 1 ⟨100, 100⟩).pos.x = 100
    ∧ ((⟨0, 7, 1, 1, 1, 1, ⟨99, 50⟩, ⟨1, 0⟩, 0, 1, 0, 10, 0, 0, 0, 0⟩ :
        Blob).stepCore ⟨1, 0⟩ 1 ⟨100, 100⟩).direction.x = -(1 : ℚ) := by
  have hgt : (movedPos ⟨0, 7, 1, 1, 1, 1, ⟨99, 50⟩, ⟨1, 0⟩, 0, 1, 0, 10, 0, 0, 0, 0⟩
      ⟨1, 0⟩ 1).x > (100 : ℚ) := by
    norm_num [movedPos, Vec2.scale, Vec2.add_def]
  have hmain := (step_border_reflection
    ⟨0, 7, 1, 1, 1, 1, ⟨99, 50⟩, ⟨1, 0⟩, 0, 1, 0, 10, 0, 0, 0, 0⟩ ⟨1, 0⟩ 1 ⟨100, 100⟩
    (by norm_num) (by norm_num)).1 hgt
  exact ⟨hgt, hmain.1, hmain.2⟩

/-! ## Feeding lemmas (claims C3, C4, C5) -/

/-- Does a circle key resolve to a Food through the object map? -/
def isFoodRef (objects : List (Nat × CircleObject)) (c : Nat) : Bool :=
  match alGet objects c with
  | some (.food _) => true
  | _ => false

theorem feed_hunger_nonneg (b : Blob) : 0 ≤ (b.feed).hunger :=
  le_max_right _ _

/-- The blob component of the feeding inner loop ignores the food
arena. -/
theorem eat_fold_fst (objects : List (Nat × CircleObject)) (touched : List Nat)
    (b : Blob) (fs : KeyedSet Food) :
    (touched.foldl (eatTouchedStep objects) (b, fs)).1
      = touched.foldl
          (fun b touched =>
            match alGet objects touched with
            | some (.food _) => b.feed
            | _ => b) b := by
  induction touched generalizing b fs with
  | nil => rfl
  | cons c rest ih =>
      simp only [List.foldl_cons]
      cases h : alGet objects c with
      | none => simpa [eatTouchedStep, h] using ih b fs
      | some o =>
          cases o with
          | blob k => simpa [eatTouchedStep, h] using ih b fs
          | blobSight k => simpa [eatTouchedStep, h] using ih b fs
          | food f => simpa [eatTouchedStep, Blob.eat, h] using ih b.feed (fs.remove f)

theorem eatPhase_fst (cols : List (Nat × List Nat))
    (objects : List (Nat × CircleObject)) (blobs : List (Nat × Blob))
    (foods : KeyedSet Food) :
    (eatPhase cols objects blobs foods).1
      = blobs.map (fun kb => (kb.1, eatBlob cols objects kb.2)) := by
  have main : ∀ (l : List (Nat × Blob)) (accL : List (Nat × Blob)) (fs : KeyedSet Food),
      (l.foldl
        (fun acc kb =>
          let touched := (alGet cols kb.2.circle).getD []
          let eaten := touched.foldl (eatTouchedStep objects) (kb.2, acc.2)
          (acc.1 ++ [(kb.1, eaten.1)], eaten.2)) (accL, fs)).1
      = accL ++ l.map (fun kb => (kb.1, eatBlob cols objects kb.2)) := by
    intro l
    induction l with
    | nil => intro accL fs; simp
    | cons kb rest ih =>
        intro accL fs
        simp only [List.foldl_cons, List.map_cons]
        rw [ih]
        rw [eat_fold_fst]
        simp [eatBlob]
  simpa [eatPhase] using main blobs [] foods

theorem eatBlob_hunger_nonneg (cols : List (Nat × List Nat))
    (objects : List (Nat × CircleObject)) (b : Blob) (h : 0 ≤ b.hunger) :
    0 ≤ (eatBlob cols objects b).hunger := by
  unfold eatBlob
  generalize (alGet cols b.circle).getD [] = touched
  induction touched generalizing b with
  | nil => exact h
  | cons c rest ih =>
      simp only [List.foldl_cons]
      cases hc : alGet objects c with
      | none => exact ih b h
      | some o =>
          cases o with
          | blob k => exact ih b h
          | blobSight k => exact ih b h
          | food f => exact ih b.feed (feed_hunger_nonneg b)

theorem eat_fold_blob_noFood (objects : List (Nat × CircleObject))
    (touched : List Nat) (b : Blob)
    (h : ∀ c ∈ touched, isFoodRef objects c = false) :
    touched.foldl
      (fun b touched =>
        match alGet objects touched with
        | some (.food _) => b.feed
        | _ => b) b = b := by
  induction touched with
  | nil => rfl
  | cons c rest ih =>
      simp only [List.foldl_cons]
      have hc := h c (List.mem_cons_self _ _)
      cases hac : alGet objects c with
      | none => exact ih (fun d hd => h d (List.mem_cons_of_mem _ hd))
      | some o =>
          cases o with
          | blob k => exact ih (fun d hd => h d (List.mem_cons_of_mem _ hd))
          | blobSight k => exact ih (fun d hd => h d (List.mem_cons_of_mem _ hd))
          | food f => simp [isFoodRef, hac] at hc

theorem eat_fold_blob_oneFood (objects : List (Nat × CircleObject))
    (touched : List Nat) (b : Blob) (c : Nat)
    (h : touched.filter (isFoodRef objects) = [c]) :
    touched.foldl
      (fun b touched =>
        match alGet objects touched with
        | some (.food _) => b.feed
        | _ => b) b = b.feed := by
  induction touched generalizing b with
  | nil => simp at h
  | cons d rest ih =>
      simp only [List.foldl_cons]
      cases hd : isFoodRef objects d with
      | false =>
          rw [List.filter_cons, if_neg (by simp [hd])] at h
          have hstep :
              (match alGet objects d with
                | some (.food _) => b.feed
                | _ => b) = b := by
            unfold isFoodRef at hd
            rcases had : alGet objects d with _ | o
            · rfl
            · cases o <;> simp [had] at hd ⊢
          rw [hstep]
          exact ih b h
      | true =>
          rw [List.filter_cons, if_pos (by simp [hd])] at h
          injection h with hdc hrest
          have hstep :
              (match alGet objects d with
                | some (.food _) => b.feed
                | _ => b) = b.feed := by
            unfold isFoodRef at hd
            rcases had : alGet objects d with _ | o
            · simp [had] at hd
            · cases o <;> simp [had] at hd ⊢
          rw [hstep]
          refine eat_fold_blob_noFood objects rest b.feed ?_
          intro e he
          rcases hfe : isFoodRef objects e with _ | _
          · rfl
          · exact absurd (List.filter_eq_nil_iff.1 hrest e he) (by simp [hfe])

/-- A blob with no food among its snapshot partners is unchanged by the
feeding phase. -/
theorem eatBlob_eq_self (cols : List (Nat × List Nat))
    (objects : List (Nat × CircleObject)) (b : Blob)
    (h : ∀ c ∈ (alGet cols b.circle).getD [], isFoodRef objects c = false) :
    eatBlob cols objects b = b :=
  eat_fold_blob_noFood objects _ b h

/-- A blob with exactly one food among its snapshot partners ends the
feeding phase with `Blob::feed` applied once. -/
theorem eatBlob_eq_feed (cols : List (Nat × List Nat))
    (objects : List (Nat × CircleObject)) (b : Blob) (c : Nat)
    (h : ((alGet cols b.circle).getD []).filter (isFoodRef objects) = [c]) :
    eatBlob cols objects b = b.feed :=
  eat_fold_blob_oneFood objects _ b c h

/-! ## Claim C4: hunger accumulation and the feeding formula -/

/-- Claim C4 (amended): a blob that eats nothing in a tick is unchanged
by the feeding phase and its hunger grows by exactly `timestep` during
integration; eating applies the exact source formula
`max((hunger - hunger_reduction·max_hunger) / (1 + hunger_division), 0)`,
and that formula never increases hunger *provided* the blob's state is
nonnegative (`0 ≤ hunger`, `0 ≤ hunger_reduction·max_hunger`,
`0 ≤ hunger_division`), which holds for all nonnegative metabolism
parameters. -/
theorem hunger_tick_and_feed (b : Blob) (d : Vec2) (timestep : ℚ) (size : Vec2)
    (cols : List (Nat × List Nat)) (objects : List (Nat × CircleObject)) :
    ((b.stepCore d timestep size).hunger = b.hunger + timestep)
    ∧ ((∀ c ∈ (alGet cols b.circle).getD [], isFoodRef objects c = false) →
        eatBlob cols objects b = b)
    ∧ ((b.feed).hunger
        = max ((b.hunger - b.hungerReduction * b.maxHunger) / (1 + b.hungerDivision)) 0)
    ∧ (0 ≤ b.hunger → 0 ≤ b.hungerReduction * b.maxHunger → 0 ≤ b.hungerDivision →
        (b.feed).hunger ≤ b.hunger) := by
  refine ⟨stepCore_hunger b d timestep size, eatBlob_eq_self cols objects b, rfl, ?_⟩
  intro hh hr hd
  show max ((b.hunger - b.hungerReduction * b.maxHunger) / (1 + b.hungerDivision)) 0
    ≤ b.hunger
  refine max_le ?_ hh
  by_cases hn : 0 ≤ b.hunger - b.hungerReduction * b.maxHunger
  · calc (b.hunger - b.hungerReduction * b.maxHunger) / (1 + b.hungerDivision)
        ≤ b.hunger - b.hungerReduction * b.maxHunger :=
          div_le_self hn (by linarith)
      _ ≤ b.hunger := by linarith
  · push_neg at hn
    exact le_trans (le_of_lt (div_neg_of_neg_of_pos hn (by linarith))) hh

/-- A blob state with `hunger_reduction = -1` (the `Blob` fields are
public in the source, so such a state is constructible): eating *raises*
hunger from 1 to 11. -/
def exC4 : Blob := ⟨0, 0, 0, 1, 1, 1, ⟨0, 0⟩, ⟨0, 0⟩, 0, 1, 1, 10, -1, 0, 0, 0⟩

/-- Counterexample to C4 as stated: the feeding formula is *not* always
a reduction — with a negative `hunger_reduction` the new hunger (11)
exceeds the old one (1). -/
theorem feed_can_increase_hunger :
    (exC4.feed).hunger = 11 ∧ ¬ (exC4.feed).hunger ≤ exC4.hunger := by
  constructor
  · norm_num [exC4, Blob.feed]
  · norm_num [exC4, Blob.feed]

/-- Witness for the amended C4 on a concrete blob with nonnegative
metabolism parameters (`hunger 4`, `max_hunger 10`,
`hunger_reduction 1/5`, `hunger_division 1`). -/
theorem hunger_tick_and_feed_witness :
    (((⟨0, 0, 0, 1, 1, 1, ⟨0, 0⟩, ⟨0, 0⟩, 0, 1, 4, 10, 1/5, 1, 0, 0⟩ : Blob).stepCore
        ⟨1, 0⟩ 2 ⟨100, 100⟩).hunger
      = (⟨0, 0, 0, 1, 1, 1, ⟨0, 0⟩, ⟨0, 0⟩, 0, 1, 4, 10, 1/5, 1, 0, 0⟩ : Blob).hunger + 2)
    ∧ (eatBlob [] [] ⟨0, 0, 0, 1, 1, 1, ⟨0, 0⟩, ⟨0, 0⟩, 0, 1, 4, 10, 1/5, 1, 0, 0⟩
        = ⟨0, 0, 0, 1, 1, 1, ⟨0, 0⟩, ⟨0, 0⟩, 0, 1, 4, 10, 1/5, 1, 0, 0⟩)
    ∧ ((⟨0, 0, 0, 1, 1, 1, ⟨0, 0⟩, ⟨0, 0⟩, 0, 1, 4, 10, 1/5, 1, 0, 0⟩ : Blob).feed).hunger
        ≤ (⟨0, 0, 0, 1, 1, 1, ⟨0, 0⟩, ⟨0, 0⟩, 0, 1, 4, 10, 1/5, 1, 0, 0⟩ : Blob).hunger := by
  refine ⟨(hunger_tick_and_feed _ ⟨1, 0⟩ 2 ⟨100, 100⟩ [] []).1,
    (hunger_tick_and_feed _ ⟨1, 0⟩ 2 ⟨100, 100⟩ [] []).2.1 ?_,
    (hunger_tick_and_feed _ ⟨1, 0⟩ 2 ⟨100, 100⟩ [] []).2.2.2
      (by norm_num) (by norm_num) (by norm_num)⟩
  intro c hc
  simp [alGet] at hc

/-! ## Claim C3: two blobs eating the same food -/

theorem KeyedSet.get_remove_self {T : Type} (s : KeyedSet T) (k : Nat) :
    (s.remove k).get k = none :=
  alGet_filter_self s.entries k

theorem eat_fold_foods_none (objects : List (Nat × CircleObject)) (touched : List Nat)
    (b : Blob) (fs : KeyedSet Food) (f : Nat) (h : fs.get f = none) :
    ((touched.foldl (eatTouchedStep objects) (b, fs)).2).get f = none := by
  induction touched generalizing b fs with
  | nil => exact h
  | cons c rest ih =>
      simp only [List.foldl_cons]
      cases hc : alGet objects c with
      | none => simpa [eatTouchedStep, hc] using ih b fs h
      | some o =>
          cases o with
          | blob k => simpa [eatTouchedStep, hc] using ih b fs h
          | blobSight k => simpa [eatTouchedStep, hc] using ih b fs h
          | food g =>
              simp only [eatTouchedStep, hc, Blob.eat]
              exact ih b.feed (fs.remove g) (alGet_filter_none _ _ _ h)

theorem eat_fold_removes (objects : List (Nat × CircleObject)) (touched : List Nat)
    (b : Blob) (fs : KeyedSet Food) (c f : Nat)
    (hc : c ∈ touched) (hf : alGet objects c = some (.food f)) :
    ((touched.foldl (eatTouchedStep objects) (b, fs)).2).get f = none := by
  induction touched generalizing b fs with
  | nil => simp at hc
  | cons d rest ih =>
      simp only [List.foldl_cons]
      rcases List.mem_cons.1 hc with hd | hd
      · rw [← hd]
        simp only [eatTouchedStep, hf, Blob.eat]
        exact eat_fold_foods_none objects rest b.feed (fs.remove f) f
          (fs.get_remove_self f)
      · cases hdc : alGet objects d with
        | none => simpa [eatTouchedStep, hdc] using ih b fs hd
        | some o =>
            cases o with
            | blob k => simpa [eatTouchedStep, hdc] using ih b fs hd
            | blobSight k => simpa [eatTouchedStep, hdc] using ih b fs hd
            | food g =>
                simp only [eatTouchedStep, hdc, Blob.eat]
                exact ih b.feed (fs.remove g) hd

/-- The foods component of the feeding phase only shrinks: a food absent
at some point stays absent. -/
theorem eatPhase_foods_none (cols : List (Nat × List Nat))
    (objects : List (Nat × CircleObject)) (blobs : List (Nat × Blob))
    (accL : List (Nat × Blob)) (fs : KeyedSet Food) (f : Nat)
    (h : fs.get f = none) :
    ((blobs.foldl
      (fun acc kb =>
        let touched := (alGet cols kb.2.circle).getD []
        let eaten := touched.foldl (eatTouchedStep objects) (kb.2, acc.2)
        (acc.1 ++ [(kb.1, eaten.1)], eaten.2)) (accL, fs)).2).get f = none := by
  induction blobs generalizing accL fs with
  | nil => exact h
  | cons kb rest ih =>
      simp only [List.foldl_cons]
      exact ih _ _ (eat_fold_foods_none _ _ _ _ _ h)

/-- Any food touched by any blob's body circle in the snapshot is gone
from the food arena after the feeding phase. -/
theorem eatPhase_foods_removed (cols : List (Nat × List Nat))
    (objects : List (Nat × CircleObject)) (blobs : List (Nat × Blob))
    (foods : KeyedSet Food) (k : Nat) (b : Blob) (c f : Nat)
    (hmem : (k, b) ∈ blobs) (hc : c ∈ (alGet cols b.circle).getD [])
    (hf : alGet objects c = some (.food f)) :
    ((eatPhase cols objects blobs foods).2).get f = none := by
  unfold eatPhase
  have main : ∀ (l : List (Nat × Blob)) (accL : List (Nat × Blob)) (fs : KeyedSet Food),
      (k, b) ∈ l →
      ((l.foldl
        (fun acc kb =>
          let touched := (alGet cols kb.2.circle).getD []
          let eaten := touched.foldl (eatTouchedStep objects) (kb.2, acc.2)
          (acc.1 ++ [(kb.1, eaten.1)], eaten.2)) (accL, fs)).2).get f = none := by
    intro l
    induction l with
    | nil => intro _ _ h; simp at h
    | cons kb rest ih =>
        intro accL fs hm
        simp only [List.foldl_cons]
        rcases List.mem_cons.1 hm with hd | hd
        · refine eatPhase_foods_none cols objects rest _ _ f ?_
          have : kb.2 = b := by rw [← hd]
          rw [this]
          exact eat_fold_removes objects _ b fs c f hc hf
        · exact ih _ _ hd
  exact main blobs [] foods hmem

theorem alGet_map_of_mem {α β : Type} (l : List (Nat × α)) (g : α → β) (k : Nat)
    (v : α) (hnd : (l.map Prod.fst).Nodup) (hm : (k, v) ∈ l) :
    alGet (l.map (fun p => (p.1, g p.2))) k = some (g v) := by
  induction l with
  | nil => simp at hm
  | cons p rest ih =>
      simp only [List.map_cons, List.nodup_cons] at hnd
      rcases List.mem_cons.1 hm with hd | hd
      · rw [← hd]
        simp [alGet]
      · have hk : k ≠ p.1 := by
          intro hk
          exact hnd.1 (hk ▸ List.mem_map_of_mem Prod.fst hd)
        rw [List.map_cons]
        simp only [alGet, if_neg hk]
        exact ih hnd.2 hd

/-- Claim C3 (amended): when several blobs' body circles touch the same
food in one snapshot, the food is removed from the arena exactly once
(the later removals are no-ops on the arena), but *every* such blob's
feeding applies: a blob whose unique food partner is that food ends the
phase with `Blob::feed` applied, which strictly lowers a positive hunger
when `hunger_reduction·max_hunger > 0` and `hunger_division ≥ 0` — the
second blob's hunger does not stay unchanged. -/
theorem shared_food_second_blob_feeds (cols : List (Nat × List Nat))
    (objects : List (Nat × CircleObject)) (blobs : List (Nat × Blob))
    (foods : KeyedSet Food) (k : Nat) (b : Blob) (c f : Nat)
    (hnd : (blobs.map Prod.fst).Nodup)
    (hmem : (k, b) ∈ blobs)
    (hfilter : ((alGet cols b.circle).getD []).filter (isFoodRef objects) = [c])
    (hf : alGet objects c = some (.food f)) :
    alGet (eatPhase cols objects blobs foods).1 k = some b.feed
    ∧ ((eatPhase cols objects blobs foods).2).get f = none
    ∧ (0 < b.hunger → 0 < b.hungerReduction * b.maxHunger → 0 ≤ b.hungerDivision →
        (b.feed).hunger < b.hunger) := by
  refine ⟨?_, ?_, ?_⟩
  · rw [eatPhase_fst]
    rw [alGet_map_of_mem blobs (eatBlob cols objects) k b hnd hmem]
    rw [eatBlob_eq_feed cols objects b c hfilter]
  · have hcmem : c ∈ (alGet cols b.circle).getD [] := by
      have : c ∈ ((alGet cols b.circle).getD []).filter (isFoodRef objects) := by
        rw [hfilter]
        exact List.mem_singleton.2 rfl
      exact List.mem_of_mem_filter this
    exact eatPhase_foods_removed cols objects blobs foods k b c f hmem hcmem hf
  · intro hh hr hd
    show max ((b.hunger - b.hungerReduction * b.maxHunger) / (1 + b.hungerDivision)) 0
      < b.hunger
    refine max_lt ?_ hh
    by_cases hn : 0 ≤ b.hunger - b.hungerReduction * b.maxHunger
    · calc (b.hunger - b.hungerReduction * b.maxHunger) / (1 + b.hungerDivision)
          ≤ b.hunger - b.hungerReduction * b.maxHunger :=
            div_le_self hn (by linarith)
        _ < b.hunger := by linarith
    · push_neg at hn
      exact lt_trans (div_neg_of_neg_of_pos hn (by linarith)) hh

/-! ## Claim C3: concrete two-blob, one-food run

A deterministic steering oracle standing in for the perception/RNG
direction update; every fact proved about the runs below is independent
of the steering outcome (the blobs have speed 0). -/

def oracle0 : Nat → Blob → Vec2 := fun _ b => b.direction

/-- Two blobs inserted through the public API: at (0,0) and (10,0),
radius 1, speed 0, sight depth 1/2, `max_hunger 100`,
`hunger_reduction 1/20`, `hunger_division 0`, then one `step(10)` (both
reach hunger 10), one food inserted at (5,0) touching both body
circles, then one `step(1)`. -/
def exC3run : Simulation :=
  (((((Simulation.new ⟨100, 100⟩).insertBlob ⟨0, 0⟩ 1 0 1 1 (1/2) 100 0 1 (1/20) 0).2.insertBlob
      ⟨10, 0⟩ 1 0 1 1 (1/2) 100 0 1 (1/20) 0).2.step oracle0 10).insertFood
      ⟨5, 0⟩).2.step oracle0 1

def exC3bA (alive hunger : ℚ) : Blob :=
  ⟨alive, 0, 1, 1, 1/2, 1, ⟨0, 0⟩, ⟨0, 0⟩, 0, 1, hunger, 100, 1/20, 0, 0, 1⟩

def exC3bB (alive hunger : ℚ) : Blob :=
  ⟨alive, 0, 1, 1, 1/2, 1, ⟨10, 0⟩, ⟨0, 0⟩, 2, 3, hunger, 100, 1/20, 0, 0, 1⟩

def exC3circles : List (Nat × Circle) :=
  [(0, ⟨⟨0, 0⟩, 1, 1⟩), (1, ⟨⟨0, 0⟩, 1/2, 2⟩),
    (2, ⟨⟨10, 0⟩, 1, 1⟩), (3, ⟨⟨10, 0⟩, 1/2, 2⟩)]

def exC3objects : List (Nat × CircleObject) :=
  [(0, .blob 0), (1, .blobSight 0), (2, .blob 1), (3, .blobSight 1)]

def exC3s2 : Simulation :=
  { size := ⟨100, 100⟩
    blobs := ⟨[(0, exC3bA 0 0), (1, exC3bB 0 0)], 2⟩
    foods := ⟨[], 0⟩
    objects := exC3objects
    physics := ⟨⟨exC3circles, 4⟩, [(1, 5), (4, 0), (2, 5), (16, 5)]⟩ }

theorem exC3_s2_eval :
    (((Simulation.new ⟨100, 100⟩).insertBlob ⟨0, 0⟩ 1 0 1 1 (1/2) 100 0 1 (1/20) 0).2.insertBlob
      ⟨10, 0⟩ 1 0 1 1 (1/2) 100 0 1 (1/20) 0).2 = exC3s2 := by
  norm_num [Simulation.new, Simulation.insertBlob, KeyedSet.new, KeyedSet.insert,
    alUpdate, simMatrix_eval, blobLayer_eval, sightLayer_eval, exC3s2, exC3bA, exC3bB,
    exC3circles, exC3objects]

theorem exC3_cols1 : exC3s2.stepCols = [(1, [0]), (3, [2])] := by
  norm_num [Simulation.stepCols, exC3s2, exC3circles, worldCollisions, sortByX,
    insertByX, sweepLoop, anyIntersectsX, Circle.intersectsXAxis, Circle.intersects,
    collisionsNaive, collidedList, layersCollide, Vec2.lengthSqr, Vec2.sub_def,
    alGet, alUpdate, maskContains_5_1, maskContains_5_2, maskContains_5_4,
    maskContains_5_16, maskContains_0]

theorem exC3_eat1 :
    exC3s2.stepEat = ([(0, exC3bA 0 0), (1, exC3bB 0 0)], ⟨[], 0⟩) := by
  rw [Simulation.stepEat, exC3_cols1]
  norm_num [exC3s2, exC3bA, exC3bB, eatPhase, eatTouchedStep, alGet]

theorem exC3_int1 :
    exC3s2.stepIntegrated oracle0 10 = [(0, exC3bA 10 10), (1, exC3bB 10 10)] := by
  rw [Simulation.stepIntegrated, exC3_eat1]
  norm_num [integratePhase, oracle0, Blob.stepCore, borderRight, borderBottom,
    borderLeft, borderTop, exC3bA, exC3bB, exC3s2, Vec2.scale, Vec2.add_def]

theorem exC3_dead1 : exC3s2.stepDead oracle0 10 = [] := by
  rw [Simulation.stepDead, exC3_int1, exC3_eat1, exC3_cols1]
  norm_num [dyingRemovals, combatRemovals, fightPairs, exC3bA, exC3bB, alGet]

def exC3s4 : Simulation :=
  { size := ⟨100, 100⟩
    blobs := ⟨[(0, exC3bA 10 10), (1, exC3bB 10 10)], 2⟩
    foods := ⟨[(0, ⟨⟨5, 0⟩, 4⟩)], 1⟩
    objects := exC3objects ++ [(4, .food 0)]
    physics := ⟨⟨exC3circles ++ [(4, ⟨⟨5, 0⟩, 5, 4⟩)], 5⟩,
      [(1, 5), (4, 0), (2, 5), (16, 5)]⟩ }

theorem exC3_s4_eval :
    ((exC3s2.step oracle0 10).insertFood ⟨5, 0⟩).2 = exC3s4 := by
  rw [Simulation.step, exC3_dead1, exC3_int1, exC3_eat1]
  norm_num [removalPhase, integrateCircles, KeyedSet.setCenter, Simulation.insertFood,
    KeyedSet.insert, alUpdate, exC3s2, exC3s4, exC3bA, exC3bB, exC3circles,
    exC3objects, foodLayer_eval, Food.RADIUS]

theorem exC3_cols2 :
    exC3s4.stepCols = [(0, [4]), (1, [0, 4]), (2, [4]), (3, [4, 2])] := by
  norm_num [Simulation.stepCols, exC3s4, exC3circles, worldCollisions, sortByX,
    insertByX, sweepLoop, anyIntersectsX, Circle.intersectsXAxis, Circle.intersects,
    collisionsNaive, collidedList, layersCollide, Vec2.lengthSqr, Vec2.sub_def,
    alGet, alUpdate, maskContains_5_1, maskContains_5_2, maskContains_5_4,
    maskContains_5_16, maskContains_0]

theorem exC3_eat2 :
    exC3s4.stepEat = ([(0, exC3bA 10 5), (1, exC3bB 10 5)], ⟨[], 1⟩) := by
  rw [Simulation.stepEat, exC3_cols2]
  norm_num [exC3s4, exC3bA, exC3bB, exC3objects, eatPhase, eatTouchedStep, Blob.eat,
    Blob.feed, KeyedSet.remove, alGet]

theorem exC3_int2 :
    exC3s4.stepIntegrated oracle0 1 = [(0, exC3bA 11 6), (1, exC3bB 11 6)] := by
  rw [Simulation.stepIntegrated, exC3_eat2]
  norm_num [integratePhase, oracle0, Blob.stepCore, borderRight, borderBottom,
    borderLeft, borderTop, exC3bA, exC3bB, exC3s4, Vec2.scale, Vec2.add_def]

theorem exC3_dead2 : exC3s4.stepDead oracle0 1 = [] := by
  rw [Simulation.stepDead, exC3_int2, exC3_eat2, exC3_cols2]
  norm_num [dyingRemovals, combatRemovals, fightPairs, exC3bA, exC3bB, exC3objects,
    alGet]

/-- Counterexample to C3 as stated: in the snapshot of the second tick
both blobs' body circles collide with the same food; the claim says the
second blob's eat is a no-op leaving its hunger unchanged, which would
make its hunger 10 + 1 = 11 after the tick.  In fact the code calls
`feed` before the (idempotent) arena removal, so *both* blobs end the
tick with hunger `max((10 - (1/20)·100)/(1+0), 0) + 1 = 6 ≠ 11`. -/
theorem second_eat_not_noop :
    ((exC3run.blobs.get 0).map Blob.hunger = some 6)
    ∧ ((exC3run.blobs.get 1).map Blob.hunger = some 6)
    ∧ ((6 : ℚ) ≠ 10 + 1) := by
  have hrun : exC3run.blobs.entries = [(0, exC3bA 11 6), (1, exC3bB 11 6)] := by
    rw [show exC3run = ((exC3s2.step oracle0 10).insertFood ⟨5, 0⟩).2.step oracle0 1 by
      rw [← exC3_s2_eval]; rfl]
    rw [exC3_s4_eval, Simulation.step, exC3_dead2, exC3_int2]
    norm_num [removalPhase]
  refine ⟨?_, ?_, by norm_num⟩
  · rw [KeyedSet.get, hrun]
    norm_num [alGet, exC3bA]
  · rw [KeyedSet.get, hrun]
    norm_num [alGet, exC3bB]

def exC3wA : Blob := ⟨0, 0, 1, 1, 1/2, 1, ⟨0, 0⟩, ⟨0, 0⟩, 10, 11, 10, 100, 1/20, 0, 0, 1⟩

def exC3wB : Blob := ⟨0, 0, 1, 1, 1/2, 1, ⟨4, 0⟩, ⟨0, 0⟩, 20, 21, 10, 100, 1/20, 0, 0, 1⟩

/-- Witness for the amended C3 at a concrete feeding phase: two blobs
(keys 0 and 1) each touch the single food circle 5; after the phase the
later blob's entry is its fed state, the food is gone from the arena,
and its hunger strictly dropped from 10 to 5. -/
theorem shared_food_second_blob_feeds_witness :
    alGet (eatPhase [(10, [5]), (20, [5])] [(5, CircleObject.food 0)]
      [(0, exC3wA), (1, exC3wB)] ⟨[(0, ⟨⟨0, 0⟩, 5⟩)], 1⟩).1 1 = some exC3wB.feed
    ∧ ((eatPhase [(10, [5]), (20, [5])] [(5, CircleObject.food 0)]
      [(0, exC3wA), (1, exC3wB)] ⟨[(0, ⟨⟨0, 0⟩, 5⟩)], 1⟩).2).get 0 = none
    ∧ (exC3wB.feed).hunger < exC3wB.hunger := by
  have h := shared_food_second_blob_feeds [(10, [5]), (20, [5])]
    [(5, CircleObject.food 0)] [(0, exC3wA), (1, exC3wB)] ⟨[(0, ⟨⟨0, 0⟩, 5⟩)], 1⟩
    1 exC3wB 5 0 (by decide)
    (List.mem_cons_of_mem _ (List.mem_cons_self _ _))
    (by norm_num [exC3wB, alGet, isFoodRef, List.filter])
    (by norm_num [alGet])
  exact ⟨h.1, h.2.1, h.2.2 (by norm_num [exC3wB]) (by norm_num [exC3wB])
    (by norm_num [exC3wB])⟩

/-! ## Claim C2: eating leaves the food's circle and map entry behind -/

/-- One blob (radius 1, speed 0, at the origin) and one food at (2,0),
inserted through the public API; the blob's body circle collides with
the food circle (circle key 2, food key 0). -/
def exC2 : Simulation :=
  (((Simulation.new ⟨100, 100⟩).insertBlob ⟨0, 0⟩ 1 0 1 1 3 100 0 1 0 0).2.insertFood
    ⟨2, 0⟩).2

def exC2blob : Blob := ⟨0, 0, 1, 1, 3, 1, ⟨0, 0⟩, ⟨0, 0⟩, 0, 1, 0, 100, 0, 0, 0, 1⟩

def exC2circles : List (Nat × Circle) :=
  [(0, ⟨⟨0, 0⟩, 1, 1⟩), (1, ⟨⟨0, 0⟩, 3, 2⟩), (2, ⟨⟨2, 0⟩, 5, 4⟩)]

def exC2lit : Simulation :=
  { size := ⟨100, 100⟩
    blobs := ⟨[(0, exC2blob)], 1⟩
    foods := ⟨[(0, ⟨⟨2, 0⟩, 2⟩)], 1⟩
    objects := [(0, .blob 0), (1, .blobSight 0), (2, .food 0)]
    physics := ⟨⟨exC2circles, 3⟩, [(1, 5), (4, 0), (2, 5), (16, 5)]⟩ }

theorem exC2_eval : exC2 = exC2lit := by
  norm_num [exC2, exC2lit, exC2blob, exC2circles, Simulation.new, Simulation.insertBlob,
    Simulation.insertFood, KeyedSet.new, KeyedSet.insert, alUpdate, simMatrix_eval,
    blobLayer_eval, sightLayer_eval, foodLayer_eval, Food.RADIUS]

theorem exC2_cols : exC2lit.stepCols = [(0, [2]), (1, [0, 2])] := by
  norm_num [Simulation.stepCols, exC2lit, exC2circles, worldCollisions, sortByX,
    insertByX, sweepLoop, anyIntersectsX, Circle.intersectsXAxis, Circle.intersects,
    collisionsNaive, collidedList, layersCollide, Vec2.lengthSqr, Vec2.sub_def,
    alGet, alUpdate, maskContains_5_1, maskContains_5_2, maskContains_5_4,
    maskContains_5_16, maskContains_0]

theorem exC2_eat : exC2lit.stepEat = ([(0, exC2blob)], ⟨[], 1⟩) := by
  rw [Simulation.stepEat, exC2_cols]
  norm_num [exC2lit, exC2blob, eatPhase, eatTouchedStep, Blob.eat, Blob.feed,
    KeyedSet.remove, alGet, KeyedSet.get]

def exC2blob1 : Blob := ⟨1, 0, 1, 1, 3, 1, ⟨0, 0⟩, ⟨0, 0⟩, 0, 1, 1, 100, 0, 0, 0, 1⟩

theorem exC2_int : exC2lit.stepIntegrated oracle0 1 = [(0, exC2blob1)] := by
  rw [Simulation.stepIntegrated, exC2_eat]
  norm_num [integratePhase, oracle0, Blob.stepCore, borderRight, borderBottom,
    borderLeft, borderTop, exC2blob, exC2blob1, exC2lit, Vec2.scale, Vec2.add_def]

theorem exC2_dead : exC2lit.stepDead oracle0 1 = [] := by
  rw [Simulation.stepDead, exC2_int, exC2_eat, exC2_cols]
  norm_num [dyingRemovals, combatRemovals, fightPairs, exC2blob, exC2blob1, exC2lit,
    alGet, KeyedSet.get]

/-- Claim C2 fails on the code: after one `step(1)` in which the blob
eats the food, the food is gone from the food arena, *but* its circle is
still live in the collision world and its circle-object map entry still
points at the removed food key — `Blob::eat` only removes the arena
entry, and `foods_to_remove` is never populated, so `remove_food`'s
cleanup never runs for eaten food. -/
theorem eaten_food_leaves_dangling_circle :
    ((exC2.step oracle0 1).foods.get 0 = none)
    ∧ ((exC2.step oracle0 1).physics.circles.get 2 = some ⟨⟨2, 0⟩, 5, Food.LAYER⟩)
    ∧ (alGet (exC2.step oracle0 1).objects 2 = some (.food 0)) := by
  rw [exC2_eval, Simulation.step, exC2_dead, exC2_int, exC2_eat]
  norm_num [removalPhase, integrateCircles, KeyedSet.setCenter, exC2lit, exC2circles,
    exC2blob1, KeyedSet.get, alGet, foodLayer_eval]

/-- By contrast `Simulation::remove_food` does clean up atomically: on
the same state, removing the food through the public API removes the
arena entry, the circle and the object-map entry together (what the
feeding path was supposed to do). -/
theorem remove_food_cleans_up :
    (((exC2.removeFood 0).2).foods.get 0 = none)
    ∧ (((exC2.removeFood 0).2).physics.circles.get 2 = none)
    ∧ (alGet ((exC2.removeFood 0).2).objects 2 = none) := by
  rw [exC2_eval]
  norm_num [Simulation.removeFood, exC2lit, exC2circles, exC2blob, KeyedSet.get,
    KeyedSet.remove, alGet, alRemove, List.filter]

/-! ## Step-level lemmas (claims C5 and C6) -/

theorem nat_bne_comm (a b : Nat) : (a != b) = (b != a) := by
  by_cases h : a = b
  · rw [h]
  · have h1 : (a != b) = true := by simpa using h
    have h2 : (b != a) = true := by simpa using Ne.symm h
    rw [h1, h2]

theorem removeBlob_blobs (sim : Simulation) (k : Nat) :
    ((sim.removeBlob k).2).blobs = sim.blobs.remove k := by
  unfold Simulation.removeBlob
  cases sim.blobs.get k <;> rfl

theorem removeBlob_foods (sim : Simulation) (k : Nat) :
    ((sim.removeBlob k).2).foods = sim.foods := by
  unfold Simulation.removeBlob
  cases sim.blobs.get k <;> rfl

theorem insertFood_blobs (sim : Simulation) (p : Vec2) :
    ((sim.insertFood p).2).blobs = sim.blobs := rfl

theorem insertFood_foods_entries (sim : Simulation) (p : Vec2) :
    ((sim.insertFood p).2).foods.entries
      = sim.foods.entries ++ [(sim.foods.next, ⟨p, sim.physics.circles.next⟩)] := rfl

/-- The blob arena after the removal phase keeps exactly the entries
whose key is hit by no removal mark. -/
theorem removalPhase_blobs (btr : List (Nat × Vec2)) (sim : Simulation) :
    (removalPhase sim btr).blobs.entries
      = sim.blobs.entries.filter (fun e => btr.all (fun p => p.1 != e.1)) := by
  induction btr generalizing sim with
  | nil =>
      simp only [removalPhase, List.foldl_nil, List.all_nil]
      rw [List.filter_true]
  | cons q rest ih =>
      show (removalPhase (((sim.removeBlob q.1).2).insertFood q.2).2 rest).blobs.entries = _
      rw [ih]
      have hblobs : ((((sim.removeBlob q.1).2).insertFood q.2).2).blobs.entries
          = sim.blobs.entries.filter (fun e => e.1 != q.1) := by
        rw [insertFood_blobs, removeBlob_blobs]
        rfl
      rw [hblobs, List.filter_filter]
      refine List.filter_congr ?_
      intro e _
      rw [List.all_cons]
      rw [nat_bne_comm e.1 q.1]
      exact Bool.and_comm _ _

/-- Each removal mark removes exactly one live blob and spawns exactly
one food. -/
theorem removalPhase_blobs_size (btr : List (Nat × Vec2)) (sim : Simulation)
    (hnd : (sim.blobs.entries.map Prod.fst).Nodup)
    (hbtrnd : (btr.map Prod.fst).Nodup)
    (hsub : ∀ p ∈ btr, p.1 ∈ sim.blobs.entries.map Prod.fst) :
    (removalPhase sim btr).blobs.size + btr.length = sim.blobs.size := by
  induction btr generalizing sim with
  | nil => rfl
  | cons q rest ih =>
      show (removalPhase (((sim.removeBlob q.1).2).insertFood q.2).2 rest).blobs.size
          + (rest.length + 1) = sim.blobs.size
      have hblobs : ((((sim.removeBlob q.1).2).insertFood q.2).2).blobs.entries
          = sim.blobs.entries.filter (fun e => e.1 != q.1) := by
        rw [insertFood_blobs, removeBlob_blobs]
        rfl
      simp only [List.map_cons, List.nodup_cons] at hbtrnd
      have hq : q.1 ∈ sim.blobs.entries.map Prod.fst :=
        hsub q (List.mem_cons_self _ _)
      have hstep := ih (((sim.removeBlob q.1).2).insertFood q.2).2
        (by rw [hblobs]; exact keys_filter_nodup _ _ hnd)
        hbtrnd.2
        (by
          intro p hp
          rw [hblobs]
          refine mem_keys_filter _ _ _ (hsub p (List.mem_cons_of_mem _ hp)) ?_
          intro hpq
          exact hbtrnd.1 (hpq ▸ List.mem_map_of_mem Prod.fst hp))
      have hlen : ((((sim.removeBlob q.1).2).insertFood q.2).2).blobs.size + 1
          = sim.blobs.size := by
        show ((((sim.removeBlob q.1).2).insertFood q.2).2).blobs.entries.length + 1
          = sim.blobs.entries.length
        rw [hblobs]
        exact filter_ne_length _ _ hnd hq
      omega

/-- The removal phase appends exactly one food per removal mark, at the
recorded position. -/
theorem removalPhase_foods_pos (btr : List (Nat × Vec2)) (sim : Simulation) :
    (removalPhase sim btr).foods.entries.map (fun p => p.2.pos)
      = sim.foods.entries.map (fun p => p.2.pos) ++ btr.map Prod.snd := by
  induction btr generalizing sim with
  | nil => simp [removalPhase]
  | cons q rest ih =>
      show (removalPhase (((sim.removeBlob q.1).2).insertFood q.2).2 rest).foods.entries.map _
          = _
      rw [ih]
      have hfoods : ((((sim.removeBlob q.1).2).insertFood q.2).2).foods.entries
          = sim.foods.entries ++ [(((sim.removeBlob q.1).2).foods.next,
              ⟨q.2, ((sim.removeBlob q.1).2).physics.circles.next⟩)] := by
        rw [insertFood_foods_entries, removeBlob_foods]
      rw [hfoods]
      simp [List.map_append]

theorem combatRemovals_keys (blobs : KeyedSet Blob) (pairs : List (Nat × Nat)) :
    ((combatRemovals blobs pairs).map Prod.fst).Nodup
    ∧ ∀ p ∈ combatRemovals blobs pairs, p.1 ∈ blobs.entries.map Prod.fst := by
  unfold combatRemovals
  have main : ∀ (l : List (Nat × Nat)) (acc : List (Nat × Vec2)),
      ((acc.map Prod.fst).Nodup ∧ ∀ p ∈ acc, p.1 ∈ blobs.entries.map Prod.fst) →
      ((l.foldl
        (fun toRemove pair =>
          match blobs.get pair.1, blobs.get pair.2 with
          | some b1, some b2 =>
              let toRemove :=
                if b1.attack > b2.defence * (1 - b2.hunger / b2.maxHunger)
                  then alUpdate toRemove pair.2 b2.pos else toRemove
              if b2.attack > b1.defence * (1 - b1.hunger / b1.maxHunger)
                then alUpdate toRemove pair.1 b1.pos else toRemove
          | _, _ => toRemove) acc).map Prod.fst).Nodup
      ∧ ∀ p ∈ l.foldl
          (fun toRemove pair =>
            match blobs.get pair.1, blobs.get pair.2 with
            | some b1, some b2 =>
                let toRemove :=
                  if b1.attack > b2.defence * (1 - b2.hunger / b2.maxHunger)
                    then alUpdate toRemove pair.2 b2.pos else toRemove
                if b2.attack > b1.defence * (1 - b1.hunger / b1.maxHunger)
                  then alUpdate toRemove pair.1 b1.pos else toRemove
            | _, _ => toRemove) acc,
          p.1 ∈ blobs.entries.map Prod.fst := by
    intro l
    induction l with
    | nil => intro acc hacc; exact hacc
    | cons pair rest ih =>
        intro acc hacc
        simp only [List.foldl_cons]
        refine ih _ ?_
        cases hg1 : blobs.get pair.1 with
        | none => simpa [hg1] using hacc
        | some b1 =>
            cases hg2 : blobs.get pair.2 with
            | none => simpa [hg1, hg2] using hacc
            | some b2 =>
                simp only [hg1, hg2]
                have hm2 : pair.2 ∈ blobs.entries.map Prod.fst :=
                  List.mem_map_of_mem Prod.fst (alGet_mem _ _ _ hg2)
                have hm1 : pair.1 ∈ blobs.entries.map Prod.fst :=
                  List.mem_map_of_mem Prod.fst (alGet_mem _ _ _ hg1)
                have step1 : ∀ (acc' : List (Nat × Vec2)),
                    ((acc'.map Prod.fst).Nodup
                      ∧ ∀ p ∈ acc', p.1 ∈ blobs.entries.map Prod.fst) →
                    (((if b1.attack > b2.defence * (1 - b2.hunger / b2.maxHunger)
                      then alUpdate acc' pair.2 b2.pos else acc').map Prod.fst).Nodup
                    ∧ ∀ p ∈ (if b1.attack > b2.defence * (1 - b2.hunger / b2.maxHunger)
                      then alUpdate acc' pair.2 b2.pos else acc'),
                      p.1 ∈ blobs.entries.map Prod.fst) := by
                  intro acc' hacc'
                  split
                  · refine ⟨alUpdate_keys_nodup _ _ _ hacc'.1, ?_⟩
                    intro p hp
                    rcases mem_alUpdate _ _ _ _ hp with h | h
                    · exact hacc'.2 p h
                    · rw [h]; exact hm2
                  · exact hacc'
                have step2 : ∀ (acc' : List (Nat × Vec2)),
                    ((acc'.map Prod.fst).Nodup
                      ∧ ∀ p ∈ acc', p.1 ∈ blobs.entries.map Prod.fst) →
                    (((if b2.attack > b1.defence * (1 - b1.hunger / b1.maxHunger)
                      then alUpdate acc' pair.1 b1.pos else acc').map Prod.fst).Nodup
                    ∧ ∀ p ∈ (if b2.attack > b1.defence * (1 - b1.hunger / b1.maxHunger)
                      then alUpdate acc' pair.1 b1.pos else acc'),
                      p.1 ∈ blobs.entries.map Prod.fst) := by
                  intro acc' hacc'
                  split
                  · refine ⟨alUpdate_keys_nodup _ _ _ hacc'.1, ?_⟩
                    intro p hp
                    rcases mem_alUpdate _ _ _ _ hp with h | h
                    · exact hacc'.2 p h
                    · rw [h]; exact hm1
                  · exact hacc'
                exact step2 _ (step1 _ hacc)
  exact main pairs [] ⟨List.nodup_nil, by intro p hp; simp at hp⟩

theorem dyingRemovals_keys (blobs : List (Nat × Blob)) (btr : List (Nat × Vec2))
    (hnd : (btr.map Prod.fst).Nodup)
    (hsub : ∀ p ∈ btr, p.1 ∈ blobs.map Prod.fst ∨ p.1 ∈ btr.map Prod.fst) :
    ((dyingRemovals blobs btr).map Prod.fst).Nodup
    ∧ ∀ p ∈ dyingRemovals blobs btr,
        p.1 ∈ blobs.map Prod.fst ∨ p.1 ∈ btr.map Prod.fst := by
  unfold dyingRemovals
  have main : ∀ (l : List (Nat × Blob)) (acc : List (Nat × Vec2)),
      (∀ q ∈ l, q ∈ blobs) →
      ((acc.map Prod.fst).Nodup
        ∧ ∀ p ∈ acc, p.1 ∈ blobs.map Prod.fst ∨ p.1 ∈ btr.map Prod.fst) →
      (((l.foldl
        (fun toRemove kb =>
          if kb.2.hunger > kb.2.maxHunger then alUpdate toRemove kb.1 kb.2.pos
          else toRemove) acc).map Prod.fst).Nodup
      ∧ ∀ p ∈ l.foldl
          (fun toRemove kb =>
            if kb.2.hunger > kb.2.maxHunger then alUpdate toRemove kb.1 kb.2.pos
            else toRemove) acc,
          p.1 ∈ blobs.map Prod.fst ∨ p.1 ∈ btr.map Prod.fst) := by
    intro l
    induction l with
    | nil => intro _ _ hacc; exact hacc
    | cons kb rest ih =>
        intro acc hl hacc
        simp only [List.foldl_cons]
        refine ih _ (fun q hq => hl q (List.mem_cons_of_mem _ hq)) ?_
        split
        · refine ⟨alUpdate_keys_nodup _ _ _ hacc.1, ?_⟩
          intro p hp
          rcases mem_alUpdate _ _ _ _ hp with h | h
          · exact hacc.2 p h
          · left
            rw [h]
            exact List.mem_map_of_mem Prod.fst (hl kb (List.mem_cons_self _ _))
        · exact hacc
  exact main blobs btr (fun q hq => hq) ⟨hnd, hsub⟩

theorem dyingRemovals_keys_mono (blobs : List (Nat × Blob)) (btr : List (Nat × Vec2))
    (k : Nat) (h : k ∈ btr.map Prod.fst) :
    k ∈ (dyingRemovals blobs btr).map Prod.fst := by
  unfold dyingRemovals
  induction blobs generalizing btr with
  | nil => exact h
  | cons kb rest ih =>
      simp only [List.foldl_cons]
      split
      · exact ih _ (mem_keys_alUpdate_mono _ _ _ _ h)
      · exact ih _ h

theorem dyingRemovals_complete (blobs : List (Nat × Blob)) (btr : List (Nat × Vec2))
    (k : Nat) (b : Blob) (hm : (k, b) ∈ blobs) (hh : b.hunger > b.maxHunger) :
    k ∈ (dyingRemovals blobs btr).map Prod.fst := by
  unfold dyingRemovals
  induction blobs generalizing btr with
  | nil => simp at hm
  | cons kb rest ih =>
      simp only [List.foldl_cons]
      rcases List.mem_cons.1 hm with hd | hd
      · have : kb = (k, b) := hd.symm
        rw [this]
        simp only [hh, if_pos]
        exact dyingRemovals_keys_mono rest _ k (mem_keys_alUpdate_self _ _ _)
      · split
        · exact ih _ hd
        · exact ih _ hd

theorem eatPhase_keys (cols : List (Nat × List Nat))
    (objects : List (Nat × CircleObject)) (blobs : List (Nat × Blob))
    (foods : KeyedSet Food) :
    ((eatPhase cols objects blobs foods).1).map Prod.fst = blobs.map Prod.fst := by
  rw [eatPhase_fst]
  rw [List.map_map]
  rfl

theorem integratePhase_keys (oracle : Nat → Blob → Vec2) (blobs : List (Nat × Blob))
    (timestep : ℚ) (size : Vec2) :
    (integratePhase oracle blobs timestep size).map Prod.fst = blobs.map Prod.fst := by
  unfold integratePhase
  rw [List.map_map]
  rfl

theorem stepIntegrated_keys (sim : Simulation) (oracle : Nat → Blob → Vec2)
    (timestep : ℚ) :
    (sim.stepIntegrated oracle timestep).map Prod.fst
      = sim.blobs.entries.map Prod.fst := by
  unfold Simulation.stepIntegrated
  rw [integratePhase_keys]
  exact eatPhase_keys _ _ _ _

theorem stepDead_keys (sim : Simulation) (oracle : Nat → Blob → Vec2) (timestep : ℚ) :
    (((sim.stepDead oracle timestep).map Prod.fst).Nodup)
    ∧ ∀ p ∈ sim.stepDead oracle timestep,
        p.1 ∈ sim.blobs.entries.map Prod.fst := by
  unfold Simulation.stepDead
  have hcomb := combatRemovals_keys ⟨sim.stepEat.1, sim.blobs.next⟩
    (fightPairs sim.stepCols sim.objects sim.stepEat.1)
  have hcombsub : ∀ p ∈ combatRemovals ⟨sim.stepEat.1, sim.blobs.next⟩
      (fightPairs sim.stepCols sim.objects sim.stepEat.1),
      p.1 ∈ sim.blobs.entries.map Prod.fst := by
    intro p hp
    have := hcomb.2 p hp
    rw [show (⟨sim.stepEat.1, sim.blobs.next⟩ : KeyedSet Blob).entries
      = sim.stepEat.1 from rfl] at this
    rw [show sim.stepEat.1 = (eatPhase sim.stepCols sim.objects sim.blobs.entries
      sim.foods).1 from rfl, eatPhase_keys] at this
    exact this
  have hall := dyingRemovals_keys (sim.stepIntegrated oracle timestep)
    (combatRemovals ⟨sim.stepEat.1, sim.blobs.next⟩
      (fightPairs sim.stepCols sim.objects sim.stepEat.1))
    hcomb.1 (fun p hp => Or.inr (List.mem_map_of_mem Prod.fst hp))
  refine ⟨hall.1, ?_⟩
  intro p hp
  rcases hall.2 p hp with h | h
  · rw [stepIntegrated_keys] at h
    exact h
  · rcases List.mem_map.1 h with ⟨q, hq, hqk⟩
    exact hqk ▸ hcombsub q hq

/-- Claim C6: every tick removes as many blobs as it spawns death
foods; the food arena after a step holds exactly the survivors of the
feeding phase followed by one food per removed blob, at the removal
position. -/
theorem step_conservation (sim : Simulation) (oracle : Nat → Blob → Vec2)
    (timestep : ℚ) (hwf : sim.WF) :
    sim.blobs.size
      = (sim.step oracle timestep).blobs.size + (sim.stepDead oracle timestep).length
    ∧ (sim.step oracle timestep).foods.entries.map (fun p => p.2.pos)
      = sim.stepEat.2.entries.map (fun p => p.2.pos)
        ++ (sim.stepDead oracle timestep).map Prod.snd := by
  have hdead := stepDead_keys sim oracle timestep
  have hintkeys := stepIntegrated_keys sim oracle timestep
  have hstep : sim.step oracle timestep
      = removalPhase
        { sim with
            blobs := ⟨sim.stepIntegrated oracle timestep, sim.blobs.next⟩
            foods := sim.stepEat.2
            physics := { sim.physics with
              circles := integrateCircles (sim.stepIntegrated oracle timestep)
                sim.physics.circles } }
        (sim.stepDead oracle timestep) := rfl
  constructor
  · have hsize := removalPhase_blobs_size (sim.stepDead oracle timestep)
      { sim with
          blobs := ⟨sim.stepIntegrated oracle timestep, sim.blobs.next⟩
          foods := sim.stepEat.2
          physics := { sim.physics with
            circles := integrateCircles (sim.stepIntegrated oracle timestep)
              sim.physics.circles } }
      (by
        show ((sim.stepIntegrated oracle timestep).map Prod.fst).Nodup
        rw [hintkeys]
        exact hwf.1.2)
      hdead.1
      (by
        intro p hp
        show p.1 ∈ (sim.stepIntegrated oracle timestep).map Prod.fst
        rw [hintkeys]
        exact hdead.2 p hp)
    have hint_len : (sim.stepIntegrated oracle timestep).length
        = sim.blobs.entries.length := by
      have := congrArg List.length hintkeys
      simpa using this
    have e1 : ({ sim with
        blobs := ⟨sim.stepIntegrated oracle timestep, sim.blobs.next⟩
        foods := sim.stepEat.2
        physics := { sim.physics with
          circles := integrateCircles (sim.stepIntegrated oracle timestep)
            sim.physics.circles } } : Simulation).blobs.size
        = (sim.stepIntegrated oracle timestep).length := rfl
    have e2 : sim.blobs.size = sim.blobs.entries.length := rfl
    rw [hstep]
    omega
  · rw [hstep, removalPhase_foods_pos]

/-- One healthy blob inserted through the public API (for the C6
witness). -/
def exC6 : Simulation :=
  ((Simulation.new ⟨50, 50⟩).insertBlob ⟨3, 3⟩ 1 0 1 1 2 100 0 1 0 0).2

/-- One healthy blob inserted through the public API (for the C5
witness). -/
def exC5 : Simulation :=
  ((Simulation.new ⟨100, 100⟩).insertBlob ⟨1, 1⟩ 1 0 1 1 3 100 0 1 0 0).2

/-- Witness for C6: one healthy blob, one tick — nothing is removed and
nothing is spawned. -/
theorem step_conservation_witness :
    exC6.blobs.size = (exC6.step oracle0 1).blobs.size + (exC6.stepDead oracle0 1).length
    ∧ (exC6.step oracle0 1).foods.entries.map (fun p => p.2.pos)
      = exC6.stepEat.2.entries.map (fun p => p.2.pos)
        ++ (exC6.stepDead oracle0 1).map Prod.snd :=
  step_conservation exC6 oracle0 1
    ⟨⟨by decide, by decide⟩, ⟨by decide, by decide⟩, ⟨by decide, by decide⟩, by decide⟩

/-! ## Claim C5: hunger bounds after a step -/

/-- Claim C5: when every live blob enters the tick with nonnegative
hunger (the invariant; blobs are inserted with hunger 0) and the
timestep is nonnegative, then after `step` every surviving blob has
`0 ≤ hunger ≤ max_hunger` — every blob whose hunger exceeded its
maximum during the tick was removed by the starvation scan. -/
theorem step_hunger_bounds (sim : Simulation) (oracle : Nat → Blob → Vec2)
    (timestep : ℚ) (hts : 0 ≤ timestep)
    (hh : ∀ p ∈ sim.blobs.entries, 0 ≤ p.2.hunger) :
    ∀ p ∈ (sim.step oracle timestep).blobs.entries,
      0 ≤ p.2.hunger ∧ p.2.hunger ≤ p.2.maxHunger := by
  intro p hp
  have hstep : (sim.step oracle timestep).blobs.entries
      = (sim.stepIntegrated oracle timestep).filter
          (fun e => (sim.stepDead oracle timestep).all (fun q => q.1 != e.1)) := by
    rw [show (sim.step oracle timestep).blobs.entries
      = (removalPhase
        { sim with
            blobs := ⟨sim.stepIntegrated oracle timestep, sim.blobs.next⟩
            foods := sim.stepEat.2
            physics := { sim.physics with
              circles := integrateCircles (sim.stepIntegrated oracle timestep)
                sim.physics.circles } }
        (sim.stepDead oracle timestep)).blobs.entries from rfl]
    rw [removalPhase_blobs]
  rw [hstep] at hp
  rcases List.mem_filter.1 hp with ⟨hmem, hpred⟩
  constructor
  · have hmem' : p ∈ (sim.stepEat.1).map
        (fun kb => (kb.1, kb.2.stepCore (oracle kb.1 kb.2) timestep sim.size)) := hmem
    rcases List.mem_map.1 hmem' with ⟨q, hq, hpq⟩
    have heat : sim.stepEat.1
        = sim.blobs.entries.map
            (fun kb => (kb.1, eatBlob sim.stepCols sim.objects kb.2)) :=
      eatPhase_fst _ _ _ _
    rw [heat] at hq
    rcases List.mem_map.1 hq with ⟨r, hr, hqr⟩
    have hhq : p.2.hunger = q.2.hunger + timestep := by
      rw [← hpq]
      exact stepCore_hunger _ _ _ _
    have hq2 : q.2 = eatBlob sim.stepCols sim.objects r.2 := by rw [← hqr]
    rw [hhq, hq2]
    have := eatBlob_hunger_nonneg sim.stepCols sim.objects r.2 (hh r hr)
    linarith
  · by_contra hgt
    push_neg at hgt
    have hkey : p.1 ∈ (sim.stepDead oracle timestep).map Prod.fst := by
      refine dyingRemovals_complete _ _ p.1 p.2 ?_ hgt
      exact (show ((p.1, p.2) : Nat × Blob) = p from rfl) ▸ hmem
    rcases List.mem_map.1 hkey with ⟨q, hq, hqk⟩
    have hall := (List.all_eq_true.1 hpred) q hq
    rw [hqk] at hall
    simp at hall

def exC5blob : Blob := ⟨0, 0, 1, 1, 3, 1, ⟨1, 1⟩, ⟨0, 0⟩, 0, 1, 0, 100, 0, 0, 0, 1⟩

def exC5blob1 : Blob := ⟨1, 0, 1, 1, 3, 1, ⟨1, 1⟩, ⟨0, 0⟩, 0, 1, 1, 100, 0, 0, 0, 1⟩

def exC5lit : Simulation :=
  { size := ⟨100, 100⟩
    blobs := ⟨[(0, exC5blob)], 1⟩
    foods := ⟨[], 0⟩
    objects := [(0, .blob 0), (1, .blobSight 0)]
    physics := ⟨⟨[(0, ⟨⟨1, 1⟩, 1, 1⟩), (1, ⟨⟨1, 1⟩, 3, 2⟩)], 2⟩,
      [(1, 5), (4, 0), (2, 5), (16, 5)]⟩ }

theorem exC5_eval : exC5 = exC5lit := by
  norm_num [exC5, exC5lit, exC5blob, Simulation.new, Simulation.insertBlob,
    KeyedSet.new, KeyedSet.insert, alUpdate, simMatrix_eval, blobLayer_eval,
    sightLayer_eval]

theorem exC5_cols : exC5lit.stepCols = [(1, [0])] := by
  norm_num [Simulation.stepCols, exC5lit, worldCollisions, sortByX, insertByX,
    sweepLoop, anyIntersectsX, Circle.intersectsXAxis, Circle.intersects,
    collisionsNaive, collidedList, layersCollide, Vec2.lengthSqr, Vec2.sub_def,
    alGet, alUpdate, maskContains_5_1, maskContains_5_2, maskContains_5_4,
    maskContains_5_16, maskContains_0]

theorem exC5_eat : exC5lit.stepEat = ([(0, exC5blob)], ⟨[], 0⟩) := by
  rw [Simulation.stepEat, exC5_cols]
  norm_num [exC5lit, exC5blob, eatPhase, eatTouchedStep, alGet]

theorem exC5_int : exC5lit.stepIntegrated oracle0 1 = [(0, exC5blob1)] := by
  rw [Simulation.stepIntegrated, exC5_eat]
  norm_num [integratePhase, oracle0, Blob.stepCore, borderRight, borderBottom,
    borderLeft, borderTop, exC5blob, exC5blob1, exC5lit, Vec2.scale, Vec2.add_def]

theorem exC5_dead : exC5lit.stepDead oracle0 1 = [] := by
  rw [Simulation.stepDead, exC5_int, exC5_eat, exC5_cols]
  norm_num [dyingRemovals, combatRemovals, fightPairs, exC5blob, exC5blob1, alGet]

/-- Witness for C5: one freshly inserted blob (hunger 0) after one tick
of length 1 — it survives with hunger 1 within its maximum 100. -/
theorem step_hunger_bounds_witness :
    0 ≤ exC5blob1.hunger ∧ exC5blob1.hunger ≤ exC5blob1.maxHunger := by
  have hmem : (0, exC5blob1) ∈ (exC5.step oracle0 1).blobs.entries := by
    rw [exC5_eval, Simulation.step, exC5_dead, exC5_int]
    norm_num [removalPhase]
  exact step_hunger_bounds exC5 oracle0 1 (by norm_num)
    (by
      intro p hp
      rw [exC5_eval] at hp
      simp only [exC5lit, List.mem_singleton] at hp
      rw [hp]
      norm_num [exC5blob])
    (0, exC5blob1) hmem

/-! ## Claim C9: `select` -/

/-- Inserting a fresh circle and removing it by its key restores the
circle store of a well-formed arena. -/
theorem KeyedSet.insert_remove_id {T : Type} (s : KeyedSet T) (v : T) (hwf : s.WF) :
    (((s.insert v).2).remove (s.insert v).1).entries = s.entries := by
  show (s.entries ++ [(s.next, v)]).filter (fun p => p.1 != s.next) = s.entries
  rw [List.filter_append]
  have h1 : s.entries.filter (fun p => p.1 != s.next) = s.entries := by
    rw [List.filter_eq_self]
    intro a ha
    simp [Nat.ne_of_lt (hwf.1 a ha)]
  have h2 : ([(s.next, v)] : List (Nat × T)).filter (fun p => p.1 != s.next) = [] := by
    simp
  rw [h1, h2, List.append_nil]

/-- Every key `select` returns was classified through the circle-object
map: blob keys come from `Blob` tags, food keys from `Food` tags. -/
theorem classifySelect_sound (objects : List (Nat × CircleObject))
    (collided : List Nat) :
    (∀ bk ∈ (classifySelect objects collided).1,
        ∃ c, alGet objects c = some (.blob bk))
    ∧ (∀ fk ∈ (classifySelect objects collided).2,
        ∃ c, alGet objects c = some (.food fk)) := by
  unfold classifySelect
  have main : ∀ (l : List Nat) (acc : List Nat × List Nat),
      (∀ bk ∈ acc.1, ∃ c, alGet objects c = some (.blob bk)) →
      (∀ fk ∈ acc.2, ∃ c, alGet objects c = some (.food fk)) →
      (∀ bk ∈ (l.foldl
        (fun acc touched =>
          match alGet objects touched with
          | some (.blob b) => (acc.1 ++ [b], acc.2)
          | some (.food f) => (acc.1, acc.2 ++ [f])
          | _ => acc) acc).1,
        ∃ c, alGet objects c = some (.blob bk))
      ∧ (∀ fk ∈ (l.foldl
        (fun acc touched =>
          match alGet objects touched with
          | some (.blob b) => (acc.1 ++ [b], acc.2)
          | some (.food f) => (acc.1, acc.2 ++ [f])
          | _ => acc) acc).2,
        ∃ c, alGet objects c = some (.food fk)) := by
    intro l
    induction l with
    | nil => intro acc h1 h2; exact ⟨h1, h2⟩
    | cons touched rest ih =>
        intro acc h1 h2
        simp only [List.foldl_cons]
        cases ht : alGet objects touched with
        | none => exact ih acc h1 h2
        | some o =>
            cases o with
            | blob b =>
                refine ih _ ?_ h2
                intro bk hbk
                rcases List.mem_append.1 hbk with h | h
                · exact h1 bk h
                · exact ⟨touched, by rw [ht, List.mem_singleton.1 h]⟩
            | food f =>
                refine ih _ h1 ?_
                intro fk hfk
                rcases List.mem_append.1 hfk with h | h
                · exact h2 fk h
                · exact ⟨touched, by rw [ht, List.mem_singleton.1 h]⟩
            | blobSight k => exact ih acc h1 h2
  exact main collided ([], []) (by intro bk h; simp at h) (by intro fk h; simp at h)

/-- Claim C9 (amended): `select` probes with a radius-`0.01` circle
(`selectProbe`) on the dedicated selection layer, classifies the circles
the probe collided with through the circle-object map into blob keys and
food keys, and removes the probe before returning: the blob arena, food
arena, circle-object map and live circle set are exactly as before the
call. -/
theorem select_effects (sim : Simulation) (p : Vec2)
    (hwf : sim.physics.circles.WF) :
    ((sim.select p).2.blobs = sim.blobs)
    ∧ ((sim.select p).2.foods = sim.foods)
    ∧ ((sim.select p).2.objects = sim.objects)
    ∧ ((sim.select p).2.physics.circles.entries = sim.physics.circles.entries)
    ∧ (∀ bk ∈ (sim.select p).1.1, ∃ c, alGet sim.objects c = some (.blob bk))
    ∧ (∀ fk ∈ (sim.select p).1.2, ∃ c, alGet sim.objects c = some (.food fk)) := by
  have hsnd : (sim.select p).2
      = { sim with physics := { sim.physics with
          circles := ((sim.physics.circles.insert (selectProbe p)).2).remove
            (sim.physics.circles.insert (selectProbe p)).1 } } := by
    unfold Simulation.select
    dsimp only
    split <;> rfl
  have hfst : (sim.select p).1
      = match alGet
          (worldCollisions sim.physics.collisionMatrix
            ((sim.physics.circles.insert (selectProbe p)).2).entries)
          (sim.physics.circles.insert (selectProbe p)).1 with
        | some collided => classifySelect sim.objects collided
        | none => ([], []) := by
    unfold Simulation.select
    dsimp only
    split <;> simp_all
  refine ⟨by rw [hsnd], by rw [hsnd], by rw [hsnd], ?_, ?_, ?_⟩
  · rw [hsnd]
    exact sim.physics.circles.insert_remove_id (selectProbe p) hwf
  · intro bk hbk
    rw [hfst] at hbk
    revert hbk
    split
    · intro hbk
      exact (classifySelect_sound sim.objects _).1 bk hbk
    · intro hbk
      simp at hbk
  · intro fk hfk
    rw [hfst] at hfk
    revert hfk
    split
    · intro hfk
      exact (classifySelect_sound sim.objects _).2 fk hfk
    · intro hfk
      simp at hfk

/-- One food at (1001/200, 0) = (5.005, 0), inserted through the public
API; `select` is then called at the origin. -/
def exC9 : Simulation := ((Simulation.new ⟨100, 100⟩).insertFood ⟨1001/200, 0⟩).2

/-- Counterexample to C9 as stated: `select` at the origin returns the
food (key 0) although a *zero-radius* probe circle at the origin does
not intersect the food's circle — the distance is 5.005, beyond the food
radius 5.  The probe the source actually inserts has radius 0.01, and
5.005 ≤ 0.01 + 5 makes the food collide with it. -/
theorem select_probe_not_zero_radius :
    ((exC9.select ⟨0, 0⟩).1.2 = [0])
    ∧ ¬ (Circle.intersects ⟨⟨0, 0⟩, 0, SELECTION_LAYER⟩
          ⟨⟨1001/200, 0⟩, Food.RADIUS, Food.LAYER⟩) := by
  have hlit : exC9 =
      { size := ⟨100, 100⟩
        blobs := ⟨[], 0⟩
        foods := ⟨[(0, ⟨⟨1001/200, 0⟩, 0⟩)], 1⟩
        objects := [(0, .food 0)]
        physics := ⟨⟨[(0, ⟨⟨1001/200, 0⟩, 5, 4⟩)], 1⟩,
          [(1, 5), (4, 0), (2, 5), (16, 5)]⟩ } := by
    norm_num [exC9, Simulation.new, Simulation.insertFood, KeyedSet.new,
      KeyedSet.insert, alUpdate, simMatrix_eval, foodLayer_eval, Food.RADIUS]
  have hcols : worldCollisions [(1, 5), (4, 0), (2, 5), (16, 5)]
      [(0, ⟨⟨1001/200, 0⟩, 5, 4⟩), (1, selectProbe ⟨0, 0⟩)] = [(1, [0])] := by
    norm_num [worldCollisions, sortByX, insertByX, sweepLoop, anyIntersectsX,
      Circle.intersectsXAxis, Circle.intersects, collisionsNaive, collidedList,
      layersCollide, selectProbe, selLayer_eval, Vec2.lengthSqr, Vec2.sub_def,
      abs_le, alGet, alUpdate, maskContains_5_1, maskContains_5_2, maskContains_5_4,
      maskContains_5_16, maskContains_0]
  constructor
  · rw [hlit]
    unfold Simulation.select
    dsimp only
    rw [show ((⟨[(0, ⟨⟨1001/200, 0⟩, 5, 4⟩)], 1⟩ : KeyedSet Circle).insert
        (selectProbe ⟨0, 0⟩)).2.entries
      = [(0, ⟨⟨1001/200, 0⟩, 5, 4⟩), (1, selectProbe ⟨0, 0⟩)] from rfl]
    rw [hcols]
    norm_num [alGet, classifySelect, KeyedSet.insert]
  · norm_num [Circle.intersects, Vec2.lengthSqr, Vec2.sub_def, Food.RADIUS]

/-- Witness for the amended C9 at the concrete state `exC9`: the call
returns with the arenas, object map and circle set unchanged. -/
theorem select_effects_witness :
    ((exC9.select ⟨0, 0⟩).2.blobs = exC9.blobs)
    ∧ ((exC9.select ⟨0, 0⟩).2.foods = exC9.foods)
    ∧ ((exC9.select ⟨0, 0⟩).2.objects = exC9.objects)
    ∧ ((exC9.select ⟨0, 0⟩).2.physics.circles.entries
        = exC9.physics.circles.entries) := by
  have h := select_effects exC9 ⟨0, 0⟩ ⟨by decide, by decide⟩
  exact ⟨h.1, h.2.1, h.2.2.1, h.2.2.2.1⟩

end Blobs
